import Mathlib

/-!
Shallow embedding of the cooperative card-game server "the-game".

The rules engine is translated from `src/src/game/GameEngine.ts`;
the connection-drop lifecycle is translated from the WebSocket
coordinator (`handlePlayerDisconnection`, the Redis-backed server source).
JavaScript numbers are embedded as `Int` (all arithmetic in the source is
small-integer exact), JS strings as `String`, arrays as `List`, and
thrown exceptions as `Except EngineError`.  `Date.now()` timestamps are
omitted (real time is outside the embedding); the `moveHistory` snapshots
are modelled by `GameCore`, the record of every state field except the
history and undo-availability, exactly matching `saveStateToHistory`'s
stripping of `moveHistory`/`canUndo` on each stored snapshot.
-/

namespace TheGame

/-- `Card` from `types/game`: unique id plus integer value. -/
structure Card where
  id : String
  value : Int
deriving DecidableEq, Repr

/-- Pile direction (`'ascending' | 'descending'`). -/
inductive PileType where
  | ascending
  | descending
deriving DecidableEq, Repr

/-- `Pile` from `types/game`. -/
structure Pile where
  id : String
  type : PileType
  startValue : Int
  currentValue : Int
  cards : List Card
deriving DecidableEq, Repr

/-- `ServerPlayer` from `types/game`. -/
structure ServerPlayer where
  id : String
  name : String
  connectionId : String
  hand : List Card
  isCurrentPlayer : Bool
  isConnected : Bool
deriving DecidableEq, Repr

/-- Game status union `'waiting' | 'cards_dealt' | 'playing' | 'won' | 'lost'`. -/
inductive GameStatus where
  | waiting
  | cardsDealt
  | playing
  | won
  | lost
deriving DecidableEq, Repr

/-- One `moveHistory` snapshot: every `ServerGameState` field except
`moveHistory` and `canUndo` (which `saveStateToHistory` always strips to
`[]` and `false` on the stored copy) and the timestamps. -/
structure GameCore where
  id : String
  status : GameStatus
  players : List ServerPlayer
  currentPlayerId : String
  piles : List Pile
  deck : List Card
  cardsPlayed : Nat
  minCardsToPlay : Nat
  isDeckEmpty : Bool
  maxPlayers : Nat
deriving DecidableEq, Repr

/-- `ServerGameState` from `types/game` (timestamps omitted). -/
structure ServerGameState where
  id : String
  status : GameStatus
  players : List ServerPlayer
  currentPlayerId : String
  piles : List Pile
  deck : List Card
  cardsPlayed : Nat
  minCardsToPlay : Nat
  isDeckEmpty : Bool
  moveHistory : List GameCore
  canUndo : Bool
  maxPlayers : Nat
deriving DecidableEq, Repr

/-- `PublicPlayer` from `types/game`: the masked per-recipient view. -/
structure PublicPlayer where
  id : String
  name : String
  handCount : Nat
  isCurrentPlayer : Bool
  isConnected : Bool
deriving DecidableEq, Repr

/-- `ClientGameState` from `types/game`. -/
structure ClientGameState where
  id : String
  status : GameStatus
  players : List PublicPlayer
  currentPlayerId : String
  piles : List Pile
  deckCount : Nat
  cardsPlayed : Nat
  minCardsToPlay : Nat
  isDeckEmpty : Bool
  canUndo : Bool
  maxPlayers : Nat
  yourHand : List Card
  yourId : String
deriving DecidableEq, Repr

/-- The typed failures thrown by `GameEngine` (`throw new Error(...)`);
`runtimeCrash` stands for a JavaScript `TypeError` on an out-of-range
index (reachable only from states the engine itself never produces). -/
inductive EngineError where
  | invalidNumberOfPlayers
  | invalidPlayerOrPile
  | notYourTurn
  | cardNotInHand
  | invalidMove
  | mustPlayMinimumCards
  | cannotUndo
  | runtimeCrash
deriving DecidableEq, Repr

/-- The state fields recorded by a history snapshot. -/
def ServerGameState.toCore (s : ServerGameState) : GameCore :=
  { id := s.id, status := s.status, players := s.players,
    currentPlayerId := s.currentPlayerId, piles := s.piles, deck := s.deck,
    cardsPlayed := s.cardsPlayed, minCardsToPlay := s.minCardsToPlay,
    isDeckEmpty := s.isDeckEmpty, maxPlayers := s.maxPlayers }

/-- Rebuild a full state from a snapshot plus history and undo flag
(`undoLastMove`'s restoration). -/
def GameCore.toState (c : GameCore) (hist : List GameCore) (undo : Bool) :
    ServerGameState :=
  { id := c.id, status := c.status, players := c.players,
    currentPlayerId := c.currentPlayerId, piles := c.piles, deck := c.deck,
    cardsPlayed := c.cardsPlayed, minCardsToPlay := c.minCardsToPlay,
    isDeckEmpty := c.isDeckEmpty, moveHistory := hist, canUndo := undo,
    maxPlayers := c.maxPlayers }

/-- JS pattern `array.find(pred)` followed by in-place mutation of the found
element: rewrite the first element satisfying `p`, leave the rest alone. -/
def updateFirst (p : α → Bool) (f : α → α) : List α → List α
  | [] => []
  | a :: as => if p a then f a :: as else a :: updateFirst p f as

/-- `GameEngine.createInitialPiles`. -/
def createInitialPiles : List Pile :=
  [ { id := "ascending-1", type := .ascending, startValue := 1,
      currentValue := 1, cards := [] },
    { id := "ascending-2", type := .ascending, startValue := 1,
      currentValue := 1, cards := [] },
    { id := "descending-1", type := .descending, startValue := 100,
      currentValue := 100, cards := [] },
    { id := "descending-2", type := .descending, startValue := 100,
      currentValue := 100, cards := [] } ]

/-- `GameEngine.getStartingHandSize`. -/
def getStartingHandSize (playerCount : Nat) : Nat :=
  if playerCount = 1 then 8
  else if playerCount = 2 then 7
  else 6

/-- `GameEngine.canPlayCard`: the move-legality rule. -/
def canPlayCard (card : Card) (pile : Pile) : Bool :=
  match pile.type with
  | .ascending =>
      card.value > pile.currentValue || card.value == pile.currentValue - 10
  | .descending =>
      card.value < pile.currentValue || card.value == pile.currentValue + 10

/-- The comparator `(a, b) => a.value - b.value` handed to `Array.sort`
(ascending by value); `insertionSort` matches the stable sort JS
guarantees. -/
def sortHand (hand : List Card) : List Card :=
  hand.insertionSort (fun a b => a.value ≤ b.value)

/-- The dealing loop of `initializeGame`: `handSize` iterations of
`deck.pop()` (from the array's back), skipping pushes once the deck is
exhausted (`if (card) hand.push(card)`). Returns the popped cards in pop
order and the remaining deck. -/
def popHand : Nat → List Card → List Card × List Card
  | 0, deck => ([], deck)
  | n + 1, deck =>
    match deck.getLast? with
    | none => ([], deck)
    | some c =>
      let r := popHand n deck.dropLast
      (c :: r.1, r.2)

/-- The `playerData.map` of `initializeGame`: deal each player in order,
threading the deck, sorting each hand ascending. -/
def dealPlayers (handSize : Nat) :
    List (String × String × String) → List Card →
    List ServerPlayer × List Card
  | [], deck => ([], deck)
  | d :: ds, deck =>
    let h := popHand handSize deck
    let r := dealPlayers handSize ds h.2
    ({ id := d.1, name := d.2.1, connectionId := d.2.2,
       hand := sortHand h.1, isCurrentPlayer := false,
       isConnected := true } :: r.1, r.2)

/-- The per-player score of `GameEngine.determineStartingPlayer`:
one point per (card, pile) pair the card is immediately playable on,
plus 2 per extreme card (value ≤ 3 or ≥ 98), plus 1 per chain starter
(value ≤ 10 or ≥ 90). -/
def playerScore (player : ServerPlayer) (piles : List Pile) : Nat :=
  (player.hand.map (fun c => (piles.filter (fun p => canPlayCard c p)).length)).sum
    + 2 * (player.hand.filter (fun c => c.value ≤ 3 || c.value ≥ 98)).length
    + (player.hand.filter (fun c => c.value ≤ 10 || c.value ≥ 90)).length

/-- `GameEngine.determineStartingPlayer`: linear scan keeping the first
strictly-best score, starting from `bestScore = -1`. -/
def determineStartingPlayer (players : List ServerPlayer) (piles : List Pile) :
    Nat :=
  (players.enum.foldl
    (fun best pi =>
      if (playerScore pi.2 piles : Int) > best.2
      then (pi.1, (playerScore pi.2 piles : Int)) else best)
    ((0 : Nat), (-1 : Int))).1

/-- `GameEngine.initializeGame`, parameterised by the shuffled deck
(`createDeck` produces the 98 cards valued 2..99 in a random order; the
shuffle's randomness is the only part abstracted as an input). -/
def initializeGame (roomId : String)
    (playerData : List (String × String × String)) (deck0 : List Card) :
    Except EngineError ServerGameState :=
  if playerData.length < 1 || playerData.length > 5 then
    .error .invalidNumberOfPlayers
  else
    let piles := createInitialPiles
    let handSize := getStartingHandSize playerData.length
    let dealt := dealPlayers handSize playerData deck0
    let startIdx := determineStartingPlayer dealt.1 piles
    match dealt.1[startIdx]? with
    | none => .error .runtimeCrash
    | some sp =>
      .ok { id := roomId, status := .playing,
            players := dealt.1.set startIdx { sp with isCurrentPlayer := true },
            currentPlayerId := sp.id, piles := piles, deck := dealt.2,
            cardsPlayed := 0, minCardsToPlay := 2, isDeckEmpty := false,
            moveHistory := [], canUndo := false, maxPlayers := 5 }

/-- `GameEngine.saveStateToHistory`: append the stripped snapshot, keep
only the last 10 (`slice(-10)`), set `canUndo`. -/
def saveStateToHistory (s : ServerGameState) : ServerGameState :=
  let hist := s.moveHistory ++ [s.toCore]
  let hist2 := if hist.length > 10 then hist.drop (hist.length - 10) else hist
  { s with moveHistory := hist2, canUndo := true }

/-- `GameEngine.playCard`. -/
def playCard (s : ServerGameState) (playerId cardId pileId : String) :
    Except EngineError ServerGameState :=
  let ns := saveStateToHistory s
  match ns.players.find? (fun p => p.id == playerId),
        ns.piles.find? (fun p => p.id == pileId) with
  | some player, some pile =>
    if playerId != ns.currentPlayerId then .error .notYourTurn
    else
      match player.hand.find? (fun c => c.id == cardId) with
      | none => .error .cardNotInHand
      | some card =>
        if !canPlayCard card pile then .error .invalidMove
        else
          let ns1 := { ns with
            players := updateFirst (fun p => p.id == playerId)
              (fun p => { p with hand := p.hand.eraseP (fun c => c.id == cardId) })
              ns.players,
            piles := updateFirst (fun pl => pl.id == pileId)
              (fun pl =>
                { pl with cards := pl.cards ++ [card], currentValue := card.value })
              ns.piles,
            cardsPlayed := ns.cardsPlayed + 1 }
          if ns1.deck.length == 0 && !ns1.isDeckEmpty then
            .ok { ns1 with isDeckEmpty := true, minCardsToPlay := 1 }
          else .ok ns1
  | _, _ => .error .invalidPlayerOrPile

/-- `GameEngine.hasValidMoves`. -/
def hasValidMoves (player : ServerPlayer) (piles : List Pile) : Bool :=
  player.hand.any (fun card => piles.any (fun pile => canPlayCard card pile))

/-- `GameEngine.checkGameStatus`. -/
def checkGameStatus (s : ServerGameState) : GameStatus :=
  if (s.players.map (fun p => p.hand.length)).sum = 0 ∧ s.deck.length = 0 then
    .won
  else
    match s.players.find? (fun p => p.id == s.currentPlayerId) with
    | some p => if !hasValidMoves p s.piles then .lost else .playing
    | none => .playing

/-- The draw loop of `endTurn`, recursing on the number of missing
cards `target - hand.length` (which the loop decrements each round):
while the hand is below target and the deck is non-empty, pop from the
deck's back onto the hand. -/
def drawCardsAux : Nat → List Card → List Card → List Card × List Card
  | 0, hand, deck => (hand, deck)
  | n + 1, hand, deck =>
    match deck.getLast? with
    | none => (hand, deck)
    | some c => drawCardsAux n (hand ++ [c]) deck.dropLast

/-- The draw loop of `endTurn`: while the hand is below target and the
deck is non-empty, pop from the deck's back onto the hand. -/
def drawCards (hand deck : List Card) (target : Nat) : List Card × List Card :=
  drawCardsAux (target - hand.length) hand deck

/-- The loop's natural unfolding: one round of `drawCards`. -/
theorem drawCards_unfold (hand deck : List Card) (target : Nat) :
    drawCards hand deck target =
      if hand.length < target then
        match deck.getLast? with
        | none => (hand, deck)
        | some c => drawCards (hand ++ [c]) deck.dropLast target
      else (hand, deck) := by
  unfold drawCards
  by_cases h : hand.length < target
  · rw [if_pos h]
    have hfuel : target - hand.length = (target - (hand.length + 1)) + 1 := by
      omega
    rw [hfuel]
    cases hlast : deck.getLast? with
    | none => simp [drawCardsAux, hlast]
    | some c =>
      simp only [drawCardsAux, hlast]
      have hlen : target - (hand.length + 1) = target - (hand ++ [c]).length := by
        simp
      rw [hlen]
  · rw [if_neg h]
    have hfuel : target - hand.length = 0 := by omega
    rw [hfuel]
    rfl

/-- `GameEngine.endTurn`. -/
def endTurn (s : ServerGameState) : Except EngineError ServerGameState :=
  if s.cardsPlayed < s.minCardsToPlay then .error .mustPlayMinimumCards
  else
    match s.players.findIdx? (fun p => p.id == s.currentPlayerId) with
    | none => .error .runtimeCrash
    | some i =>
      match s.players[i]? with
      | none => .error .runtimeCrash
      | some cur =>
        let s1 :=
          if !s.isDeckEmpty && s.deck.length > 0 then
            let hd := drawCards cur.hand s.deck
                        (getStartingHandSize s.players.length)
            { s with players := s.players.set i { cur with hand := sortHand hd.1 },
                     deck := hd.2 }
          else s
        let nextIdx := (i + 1) % s1.players.length
        let players2 :=
          (s1.players.modify (fun p => { p with isCurrentPlayer := false }) i).modify
            (fun p => { p with isCurrentPlayer := true }) nextIdx
        match players2[nextIdx]? with
        | none => .error .runtimeCrash
        | some np =>
          let s2 :=
            { s1 with players := players2, currentPlayerId := np.id, cardsPlayed := 0 }
          .ok { s2 with status := checkGameStatus s2, canUndo := false }

/-- `GameEngine.undoLastMove`. -/
def undoLastMove (s : ServerGameState) : Except EngineError ServerGameState :=
  if !s.canUndo || s.moveHistory.isEmpty then .error .cannotUndo
  else
    match s.moveHistory.getLast? with
    | none => .error .cannotUndo
    | some prev =>
      let hist := s.moveHistory.dropLast
      .ok (prev.toState hist (decide (hist.length > 0)))

/-- `GameEngine.createClientGameState`. -/
def createClientGameState (s : ServerGameState) (playerId : String) :
    ClientGameState :=
  let player := s.players.find? (fun p => p.id == playerId)
  { id := s.id, status := s.status,
    players := s.players.map (fun p =>
      { id := p.id, name := p.name, handCount := p.hand.length,
        isCurrentPlayer := p.isCurrentPlayer, isConnected := p.isConnected }),
    currentPlayerId := s.currentPlayerId, piles := s.piles,
    deckCount := s.deck.length, cardsPlayed := s.cardsPlayed,
    minCardsToPlay := s.minCardsToPlay, isDeckEmpty := s.isDeckEmpty,
    canUndo := s.canUndo, maxPlayers := s.maxPlayers,
    yourHand := match player with | some p => p.hand | none => [],
    yourId := playerId }

/-! The connection coordinator's disconnection lifecycle, translated from
`handlePlayerDisconnection` in the WebSocket server source (the
Redis-backed version, whose `GameRoom` separates the durable roster
`players` from the ephemeral `connections` map).  The `playerConnections`
lookup and the socket argument are resolved by the caller; the embedding
takes the resolved room and player id.  Live sockets are modelled by the
set of player ids holding one. -/

/-- A roster entry (`RoomPlayer`): survives disconnects. -/
structure RoomPlayer where
  id : String
  name : String
deriving DecidableEq, Repr

/-- `GameRoom` (timestamps and chat omitted; `connections` keeps only the
keys of the id-to-socket map). -/
structure GameRoom where
  id : String
  gameState : Option ServerGameState
  players : List RoomPlayer
  connections : List String
  maxPlayers : Nat
  isStarted : Bool
deriving DecidableEq, Repr

/-- The notifications `handlePlayerDisconnection` broadcasts to the room. -/
inductive RoomNotice where
  | playerDisconnected (playerId playerName : String)
  | playerLeft (playerId : String)
deriving DecidableEq, Repr

/-- Result of the disconnection handler: the room as left in memory
(`none` = evicted), plus the broadcast notices. -/
structure DisconnectionResult where
  room : Option GameRoom
  notices : List RoomNotice
deriving DecidableEq, Repr

/-- Mark the first game-state player with this id as disconnected
(`find` + in-place mutation). -/
def markDisconnected (g : ServerGameState) (playerId : String) :
    ServerGameState :=
  { g with players := updateFirst (fun p => p.id == playerId)
                        (fun p => { p with isConnected := false }) g.players }

/-- `handlePlayerDisconnection(ws, options)` after the caller resolved the
socket to `(room, playerId)`; `removeFromRoom` is the option set only by
the explicit-leave path. -/
def handlePlayerDisconnection (room : GameRoom) (playerId : String)
    (removeFromRoom : Bool) : DisconnectionResult :=
  let player := room.players.find? (fun p => p.id == playerId)
  let playerName := match player with | some p => p.name | none => "Unknown"
  let conns := room.connections.filter (fun c => c != playerId)
  let roster :=
    if removeFromRoom then room.players.filter (fun p => p.id != playerId)
    else room.players
  let gsAndNotices : Option ServerGameState × List RoomNotice :=
    match room.gameState with
    | some g =>
      match g.players.find? (fun p => p.id == playerId) with
      | some _ =>
        (some (markDisconnected g playerId),
         [RoomNotice.playerDisconnected playerId playerName])
      | none => (some g, [])
    | none =>
      if removeFromRoom then (none, [RoomNotice.playerLeft playerId])
      else (none, [RoomNotice.playerDisconnected playerId playerName])
  let room' :=
    { room with connections := conns, players := roster, gameState := gsAndNotices.1 }
  let evict := roster.isEmpty &&
    (match gsAndNotices.1 with
     | none => true
     | some g => g.status == GameStatus.waiting)
  { room := if evict then none else some room', notices := gsAndNotices.2 }

/-- The `game_action` payload dispatched by `handleGameAction`
(`play_card` | `end_turn` | `undo_move`; the acting player id comes from
the connection binding). -/
inductive GameAction where
  | playCardAction (playerId cardId pileId : String)
  | endTurnAction
  | undoMoveAction
deriving DecidableEq, Repr

/-- The Rules Engine call made by `handleGameAction` for each action. -/
def engineStep (s : ServerGameState) : GameAction → Except EngineError ServerGameState
  | .playCardAction pid cid plid => playCard s pid cid plid
  | .endTurnAction => endTurn s
  | .undoMoveAction => undoLastMove s

/-- The dispatch boundary of `handleGameAction`: on success the room's
game state is replaced by the engine's result; a thrown engine failure is
caught, reported as a scoped error, and the stored state is left as it
was. -/
def applyGameAction (s : ServerGameState) (a : GameAction) :
    ServerGameState × Option EngineError :=
  match engineStep s a with
  | .ok s' => (s', none)
  | .error e => (s, some e)

/-- The state `playCard` returns on success, given the card it found in
the acting player's hand (used to state the inversion principle for
`playCard`). -/
def playCardSuccess (s : ServerGameState) (pid cid plid : String)
    (card : Card) : ServerGameState :=
  let ns := saveStateToHistory s
  let ns1 := { ns with
    players := updateFirst (fun p => p.id == pid)
      (fun p => { p with hand := p.hand.eraseP (fun c => c.id == cid) })
      ns.players,
    piles := updateFirst (fun pl => pl.id == plid)
      (fun pl =>
        { pl with cards := pl.cards ++ [card], currentValue := card.value })
      ns.piles,
    cardsPlayed := ns.cardsPlayed + 1 }
  if ns1.deck.length == 0 && !ns1.isDeckEmpty then
    { ns1 with isDeckEmpty := true, minCardsToPlay := 1 }
  else ns1

/-- Extract the state of a successful engine result, with a fallback. -/
def exceptOk (d : ServerGameState) :
    Except EngineError ServerGameState → ServerGameState
  | .ok s => s
  | .error _ => d

/-- Proof-side recursion equivalent of the `determineStartingPlayer`
fold: scan the players from index `k` keeping the first strictly-best
score. -/
def bestFrom (f : ServerPlayer → Int) :
    List ServerPlayer → Nat → Nat × Int → Nat × Int
  | [], _, b => b
  | p :: ps, k, b =>
    bestFrom f ps (k + 1) (if f p > b.2 then (k, f p) else b)

/-- The starting-player heuristic score as the spec words it: the count
of cards in hand immediately playable on any of the 4 piles, plus 2 per
extreme card (value ≤ 3 or ≥ 98), plus 1 per chain starter (value ≤ 10
or ≥ 90).  Compare `playerScore`, the source's loop, which instead adds
one point per playable (card, pile) pair. -/
def specPlayerScore (player : ServerPlayer) (piles : List Pile) : Nat :=
  (player.hand.filter (fun c => piles.any (fun p => canPlayCard c p))).length
    + 2 * (player.hand.filter (fun c => c.value ≤ 3 || c.value ≥ 98)).length
    + (player.hand.filter (fun c => c.value ≤ 10 || c.value ≥ 90)).length

/-- The deck `createDeck` hands to the dealer, up to the shuffle's
randomness: 98 cards whose values enumerate 2..99 in some order. -/
def StandardDeck (deck : List Card) : Prop :=
  (deck.map (fun c => c.value)).Perm
    ((List.range 98).map (fun n => (n : Int) + 2))

/-- Game states the engine can produce: an `initializeGame` result on a
standard deck, with the roster constrained by `P`, followed by any
sequence of successful `playCard`, `endTurn` and `undoLastMove` calls. -/
inductive Reachable (P : List (String × String × String) → Prop) :
    ServerGameState → Prop where
  | init : ∀ roomId pd deck s, P pd → StandardDeck deck →
      initializeGame roomId pd deck = .ok s → Reachable P s
  | play : ∀ s pid cid plid s', Reachable P s →
      playCard s pid cid plid = .ok s' → Reachable P s'
  | advance : ∀ s s', Reachable P s → endTurn s = .ok s' → Reachable P s'
  | undo : ∀ s s', Reachable P s → undoLastMove s = .ok s' → Reachable P s'

/-- Total number of cards held in hands. -/
def handsTotal (ps : List ServerPlayer) : Nat :=
  (ps.map (fun p => p.hand.length)).sum

/-- Total number of cards played onto piles. -/
def pilesTotal (pls : List Pile) : Nat :=
  (pls.map (fun p => p.cards.length)).sum

/-- All cards tracked by a snapshot: hands plus draw deck plus piles. -/
def coreTotal (c : GameCore) : Nat :=
  handsTotal c.players + c.deck.length + pilesTotal c.piles

/-- The current-turn flag sits exactly at the index the engine resolves
`currentPlayerId` to. -/
def FlagInv (c : GameCore) : Prop :=
  ∃ i, i < c.players.length ∧
    (c.players.map (fun p => p.id)).findIdx?
      (fun x => x == c.currentPlayerId) = some i ∧
    c.players.map (fun p => p.isCurrentPlayer)
      = (List.replicate c.players.length false).set i true

/-- The invariant carried by every engine-produced snapshot. -/
def CoreInv (c : GameCore) : Prop :=
  coreTotal c = 98 ∧ (c.players.map (fun p => p.id)).Nodup ∧ FlagInv c

/-- The invariant of a full state: its own snapshot and every stored
history snapshot satisfy `CoreInv`. -/
def StateInv (s : ServerGameState) : Prop :=
  CoreInv s.toCore ∧ ∀ c ∈ s.moveHistory, CoreInv c

/-! ### Concrete fixtures used to evaluate the theorems -/

/-- A two-player mid-game state used as a concrete evaluation point. -/
def sampleState : ServerGameState :=
  { id := "r", status := .playing,
    players :=
      [ { id := "a", name := "A", connectionId := "a",
          hand := [{ id := "h1", value := 5 }, { id := "h3", value := 8 }],
          isCurrentPlayer := true, isConnected := true },
        { id := "b", name := "B", connectionId := "b",
          hand := [{ id := "h2", value := 7 }], isCurrentPlayer := false,
          isConnected := true } ],
    currentPlayerId := "a", piles := createInitialPiles,
    deck := [{ id := "d1", value := 9 }], cardsPlayed := 0,
    minCardsToPlay := 2, isDeckEmpty := false, moveHistory := [],
    canUndo := false, maxPlayers := 5 }

/-- `sampleState` with the second player's hand contents swapped for a
different hand of the same size. -/
def sampleStateSwapped : ServerGameState :=
  { sampleState with
    players := sampleState.players.modify
      (fun p => { p with hand := [{ id := "x", value := 50 }] }) 1 }

/-- `sampleState` after the current player plays card `h1` on the first
ascending pile. -/
def samplePlayed : ServerGameState :=
  exceptOk sampleState (playCard sampleState "a" "h1" "ascending-1")

/-- A room holding the in-progress sample game, with both players
connected. -/
def sampleRoom : GameRoom :=
  { id := "R", gameState := some sampleState,
    players := [{ id := "a", name := "A" }, { id := "b", name := "B" }],
    connections := ["a", "b"], maxPlayers := 5, isStarted := true }

/-- `sampleState` with the turn's minimum already played, ready for
`endTurn`. -/
def sampleEndState : ServerGameState := { sampleState with cardsPlayed := 2 }

/-- A concrete 98-card deck holding each value 2..99 once. -/
def demoDeck : List Card :=
  (List.range 98).map (fun n => { id := Nat.repr (n + 2), value := (n : Int) + 2 })

/-- A concrete 2-player roster. -/
def demoPlayers : List (String × String × String) :=
  [("alice", "Alice", "ca"), ("bob", "Bob", "cb")]

/-- Deck for the duplicate-id counterexample, listed front to back:
dealing pops from the back, so the first seat receives 50..55, the
second 60..65, and the third — which shares the id "a" with the first —
the extreme cards that win the starting-player heuristic. -/
def badValues : List Nat :=
  ((List.range 46).map (fun n => n + 4)) ++ [56, 57, 58, 59]
    ++ ((List.range 30).map (fun n => n + 66))
    ++ [96, 97, 98, 99, 2, 3] ++ [60, 61, 62, 63, 64, 65]
    ++ [50, 51, 52, 53, 54, 55]

/-- The counterexample deck: a permutation of the 98 standard cards. -/
def badDeck : List Card :=
  badValues.map (fun v => { id := Nat.repr v, value := (v : Int) })

/-- A roster in which the first and third player share the id "a". -/
def badPD : List (String × String × String) :=
  [("a", "Alice", "c1"), ("b", "Bob", "c2"), ("a", "Ann", "c3")]

/-- The duplicate-id game right after initialization: the heuristic
hands the turn to seat 2, whose id "a" also belongs to seat 0. -/
def badState0 : ServerGameState :=
  exceptOk sampleState (initializeGame "bad" badPD badDeck)

/-- The same game after seat 0 (which `find?` resolves "a" to) plays
the 50 on the first ascending pile. -/
def badState1 : ServerGameState :=
  exceptOk sampleState (playCard badState0 "a" "50" "ascending-1")

/-- The same game after the 51 follows the 50. -/
def badState2 : ServerGameState :=
  exceptOk sampleState (playCard badState1 "a" "51" "ascending-1")

/-- The same game after the turn ends: `endTurn` clears the flag at
seat 0 and raises it at seat 1, while seat 2 keeps the flag that
initialization gave it. -/
def badState3 : ServerGameState :=
  exceptOk sampleState (endTurn badState2)

/-! ### General list helpers -/

theorem set_of_getElem_eq {α : Type} (l : List α) (k : Nat) (x : α)
    (h : l[k]? = some x) : l.set k x = l := by
  apply List.ext_getElem?
  intro j
  by_cases hj : k = j
  · subst hj
    have hk : k < l.length := by
      by_contra hk
      rw [List.getElem?_eq_none (by omega)] at h
      exact Option.noConfusion h
    rw [List.getElem?_set_self hk, h]
  · rw [List.getElem?_set_ne hj]

theorem find?_set_of_pred_false {α : Type} (l : List α) (k : Nat) (x q : α)
    (p : α → Bool) (hq : l[k]? = some q) (hpq : p q = false)
    (hpx : p x = false) : (l.set k x).find? p = l.find? p := by
  induction l generalizing k with
  | nil => simp at hq
  | cons a t ih =>
    cases k with
    | zero =>
      simp only [List.getElem?_cons_zero, Option.some.injEq] at hq
      subst hq
      simp [List.find?_cons, hpq, hpx]
    | succ k =>
      simp only [List.getElem?_cons_succ] at hq
      simp only [List.set_cons_succ, List.find?_cons]
      cases hpa : p a
      · exact ih k hq
      · rfl

/-! ### Inversion of a successful playCard -/

theorem playCard_ok_inv {s : ServerGameState} {pid cid plid : String}
    {s' : ServerGameState} (h : playCard s pid cid plid = .ok s') :
    ∃ player pile card,
      s.players.find? (fun p => p.id == pid) = some player ∧
      s.piles.find? (fun p => p.id == plid) = some pile ∧
      pid = s.currentPlayerId ∧
      player.hand.find? (fun c => c.id == cid) = some card ∧
      canPlayCard card pile = true ∧
      s' = playCardSuccess s pid cid plid card := by
  simp only [playCard] at h
  rw [show (saveStateToHistory s).players = s.players from rfl,
    show (saveStateToHistory s).piles = s.piles from rfl,
    show (saveStateToHistory s).currentPlayerId = s.currentPlayerId from rfl]
    at h
  cases hfp : s.players.find? (fun p => p.id == pid) with
  | none => rw [hfp] at h; cases hfpile : s.piles.find? (fun p => p.id == plid) <;>
      rw [hfpile] at h <;> exact absurd h (by simp)
  | some player =>
    rw [hfp] at h
    cases hfpile : s.piles.find? (fun p => p.id == plid) with
    | none => rw [hfpile] at h; exact absurd h (by simp)
    | some pile =>
      rw [hfpile] at h
      simp only at h
      by_cases hpid : pid = s.currentPlayerId
      · rw [if_neg (by simp [hpid])] at h
        cases hfc : player.hand.find? (fun c => c.id == cid) with
        | none => rw [hfc] at h; simp only at h; exact absurd h (by simp)
        | some card =>
          rw [hfc] at h
          simp only at h
          by_cases hcan : canPlayCard card pile = true
          · rw [hcan] at h
            simp only [Bool.not_true, Bool.false_eq_true, if_false] at h
            refine ⟨player, pile, card, rfl, rfl, hpid, hfc, hcan, ?_⟩
            simp only [playCardSuccess]
            split at h <;> rename_i hsplit
            · rw [if_pos hsplit]
              exact ((Except.ok.injEq _ _).mp h).symm
            · rw [if_neg hsplit]
              exact ((Except.ok.injEq _ _).mp h).symm
          · rw [Bool.not_eq_true] at hcan
            rw [hcan] at h
            simp only [Bool.not_false, if_true] at h
            exact absurd h (by simp)
      · rw [if_pos (by simp [hpid])] at h
        exact absurd h (by simp)

theorem getLast?_drop_of_lt {α : Type} :
    ∀ (l : List α) (k : Nat), k < l.length →
      (l.drop k).getLast? = l.getLast?
  | _, 0, _ => rfl
  | a :: t, k + 1, h => by
    rw [List.drop_succ_cons]
    cases t with
    | nil => exact absurd h (by simp)
    | cons b t2 =>
      rw [getLast?_drop_of_lt (b :: t2) k (by simpa using h),
        List.getLast?_cons_cons]

theorem saveStateToHistory_facts (s : ServerGameState) :
    (saveStateToHistory s).moveHistory.getLast? = some s.toCore ∧
    (saveStateToHistory s).moveHistory ≠ [] ∧
    (∀ c ∈ (saveStateToHistory s).moveHistory,
        c = s.toCore ∨ c ∈ s.moveHistory) := by
  unfold saveStateToHistory
  simp only
  constructor
  · split
    · rename_i hlen
      rw [getLast?_drop_of_lt _ _ (by omega), List.getLast?_concat]
    · rw [List.getLast?_concat]
  · constructor
    · split
      · rename_i hlen
        intro hcontr
        have := congrArg List.length hcontr
        rw [List.length_drop] at this
        simp at this
        omega
      · simp
    · intro c hc
      have hc2 : c ∈ s.moveHistory ++ [s.toCore] := by
        revert hc
        split
        · intro hc; exact List.mem_of_mem_drop hc
        · intro hc; exact hc
      rcases List.mem_append.mp hc2 with h1 | h1
      · exact Or.inr h1
      · exact Or.inl (by simpa using h1)

theorem playCardSuccess_fields (s : ServerGameState) (pid cid plid : String)
    (card : Card) :
    (playCardSuccess s pid cid plid card).canUndo = true ∧
    (playCardSuccess s pid cid plid card).moveHistory
      = (saveStateToHistory s).moveHistory ∧
    (playCardSuccess s pid cid plid card).status = s.status ∧
    (playCardSuccess s pid cid plid card).deck = s.deck ∧
    (playCardSuccess s pid cid plid card).currentPlayerId = s.currentPlayerId ∧
    (playCardSuccess s pid cid plid card).players
      = updateFirst (fun p => p.id == pid)
          (fun p => { p with hand := p.hand.eraseP (fun c => c.id == cid) })
          s.players ∧
    (playCardSuccess s pid cid plid card).piles
      = updateFirst (fun pl => pl.id == plid)
          (fun pl =>
            { pl with cards := pl.cards ++ [card], currentValue := card.value })
          s.piles := by
  simp only [playCardSuccess]
  split <;> exact ⟨rfl, rfl, rfl, rfl, rfl, rfl, rfl⟩

theorem updateFirst_eq_modify {α : Type} (p : α → Bool) (f : α → α) :
    ∀ (l : List α) (j : Nat), l.findIdx? p = some j →
      updateFirst p f l = l.modify f j
  | [], j, hj => by simp at hj
  | a :: as, j, hj => by
    rw [List.findIdx?_cons] at hj
    by_cases hpa : p a
    · rw [if_pos hpa] at hj
      obtain rfl : (0 : Nat) = j := by simpa using hj
      unfold updateFirst
      rw [if_pos hpa, List.modify_zero_cons]
    · rw [if_neg hpa] at hj
      rw [show (0 : Nat) + 1 = 0 + 1 from rfl, List.findIdx?_start_succ] at hj
      obtain ⟨j2, hj2, rfl⟩ := Option.map_eq_some'.mp hj
      unfold updateFirst
      rw [if_neg hpa, List.modify_succ_cons,
        updateFirst_eq_modify p f as j2 hj2]

theorem updateFirst_length {α : Type} (p : α → Bool) (f : α → α) :
    ∀ l : List α, (updateFirst p f l).length = l.length
  | [] => rfl
  | a :: as => by
    unfold updateFirst
    split
    · rfl
    · simpa using updateFirst_length p f as

theorem find?_findIdx {α : Type} (p : α → Bool) :
    ∀ (l : List α) (a : α), l.find? p = some a →
      ∃ j, ∃ hj : j < l.length, l.findIdx? p = some j ∧ l.get ⟨j, hj⟩ = a
  | [], a, h => by simp at h
  | x :: xs, a, h => by
    cases hpx : p x with
    | true =>
      rw [List.find?_cons_of_pos _ hpx] at h
      obtain rfl : x = a := by simpa using h
      exact ⟨0, by simp, by simp [List.findIdx?_cons, hpx], rfl⟩
    | false =>
      rw [List.find?_cons_of_neg _ (by simp [hpx])] at h
      obtain ⟨j, hj, hidx, hget⟩ := find?_findIdx p xs a h
      refine ⟨j + 1, by simpa using hj, ?_, by simpa using hget⟩
      rw [List.findIdx?_cons, if_neg (by simp [hpx]),
        show (0 : Nat) + 1 = 0 + 1 from rfl, List.findIdx?_start_succ, hidx]
      rfl

theorem map_modify_of_fixed {α β : Type} (g : α → β) (f : α → α)
    (hf : ∀ a, g (f a) = g a) :
    ∀ (l : List α) (k : Nat), (l.modify f k).map g = l.map g
  | [], k => by simp
  | a :: as, 0 => by simp [List.modify_zero_cons, hf]
  | a :: as, k + 1 => by
    rw [List.modify_succ_cons, List.map_cons, List.map_cons,
      map_modify_of_fixed g f hf as k]

theorem map_set_eq_of_getElem {α β : Type} (g : α → β) (l : List α) (i : Nat)
    (x : α) (hx : ∀ a, l[i]? = some a → g x = g a) :
    (l.set i x).map g = l.map g := by
  by_cases hi : i < l.length
  · rw [List.map_set]
    apply set_of_getElem_eq
    rw [List.getElem?_map, List.getElem?_eq_getElem hi]
    simp only [Option.map_some', Option.some.injEq]
    exact (hx _ (List.getElem?_eq_getElem hi)).symm
  · rw [List.set_eq_of_length_le (by omega)]

theorem sortHand_sorted (hand : List Card) :
    (sortHand hand).Pairwise (fun a b => a.value ≤ b.value) := by
  haveI : IsTotal Card (fun a b => a.value ≤ b.value) :=
    ⟨fun a b => by omega⟩
  haveI : IsTrans Card (fun a b => a.value ≤ b.value) :=
    ⟨fun a b c hab hbc => by omega⟩
  exact List.sorted_insertionSort (fun a b => a.value ≤ b.value) hand

theorem sortHand_perm (hand : List Card) : (sortHand hand).Perm hand :=
  List.perm_insertionSort _ hand

theorem sortHand_length (hand : List Card) :
    (sortHand hand).length = hand.length :=
  (List.perm_insertionSort _ hand).length_eq

theorem drawCards_spec (target : Nat) (hand deck : List Card) :
    ∃ m, m ≤ deck.length ∧
      (drawCards hand deck target).2 = deck.take m ∧
      (drawCards hand deck target).1 = hand ++ (deck.drop m).reverse ∧
      (drawCards hand deck target).1.length
        = max hand.length (min target (hand.length + deck.length)) := by
  rw [drawCards_unfold]
  by_cases h : hand.length < target
  · rw [if_pos h]
    cases hlast : deck.getLast? with
    | none =>
      have hdeck : deck = [] := by simpa using hlast
      subst hdeck
      refine ⟨0, by simp, by simp, by simp, by simp⟩
    | some c =>
      have hne : deck ≠ [] := by
        intro hcontr
        subst hcontr
        simp at hlast
      have hdl : deck.dropLast.length = deck.length - 1 :=
        List.length_dropLast deck
      have hpos : 0 < deck.length := List.length_pos_of_ne_nil hne
      have hsplit : deck.dropLast ++ [c] = deck := by
        have hg : deck.getLast hne = c := by
          rw [List.getLast?_eq_getLast deck hne] at hlast
          simpa using hlast
        rw [← hg]
        exact List.dropLast_append_getLast hne
      obtain ⟨m, hm, h2, h1, hlen⟩ := drawCards_spec target (hand ++ [c])
        deck.dropLast
      refine ⟨m, by omega, ?_, ?_, ?_⟩
      · rw [h2]
        have htake : deck.take m = deck.dropLast.take m := by
          conv_lhs => rw [← hsplit]
          rw [List.take_append_of_le_length hm]
        rw [htake]
      · rw [h1]
        have hdrop : deck.drop m = deck.dropLast.drop m ++ [c] := by
          conv_lhs => rw [← hsplit]
          rw [List.drop_append_of_le_length hm]
        rw [hdrop, List.reverse_append, List.reverse_singleton,
          List.append_assoc]
      · rw [hlen]
        simp only [List.length_append, List.length_singleton]
        omega
  · rw [if_neg h]
    refine ⟨deck.length, Nat.le_refl _, by simp, by simp, by simp; omega⟩
termination_by target - hand.length
decreasing_by simp; omega

theorem foldl_enumFrom_bestFrom (f : ServerPlayer → Int) :
    ∀ (ps : List ServerPlayer) (k : Nat) (b : Nat × Int),
      (List.enumFrom k ps).foldl
        (fun best pi => if f pi.2 > best.2 then (pi.1, f pi.2) else best) b
        = bestFrom f ps k b
  | [], k, b => rfl
  | p :: ps, k, b => by
    rw [List.enumFrom_cons, List.foldl_cons]
    exact foldl_enumFrom_bestFrom f ps (k + 1) _

theorem bestFrom_cases (f : ServerPlayer → Int) :
    ∀ (ps : List ServerPlayer) (k : Nat) (b : Nat × Int),
      (bestFrom f ps k b = b ∧
        ∀ j (hj : j < ps.length), f (ps.get ⟨j, hj⟩) ≤ b.2) ∨
      (∃ j, ∃ hj : j < ps.length,
        bestFrom f ps k b = (k + j, f (ps.get ⟨j, hj⟩)) ∧
        b.2 < f (ps.get ⟨j, hj⟩) ∧
        (∀ i (hi : i < ps.length), i < j →
          f (ps.get ⟨i, hi⟩) < f (ps.get ⟨j, hj⟩)) ∧
        (∀ i (hi : i < ps.length), f (ps.get ⟨i, hi⟩) ≤ f (ps.get ⟨j, hj⟩)))
  | [], k, b => Or.inl ⟨rfl, fun j hj => absurd hj (by simp)⟩
  | p :: ps, k, b => by
    unfold bestFrom
    by_cases hfp : f p > b.2
    · rw [if_pos hfp]
      rcases bestFrom_cases f ps (k + 1) (k, f p) with
        ⟨heq, hall⟩ | ⟨j2, hj2, heq, hgt, hstrict, hall⟩
      · refine Or.inr ⟨0, by simp, ?_, ?_, ?_, ?_⟩
        · rw [heq, Nat.add_zero]
          rfl
        · exact hfp
        · intro i hi hcontr
          exact absurd hcontr (Nat.not_lt_zero i)
        · intro i hi
          cases i with
          | zero => exact le_refl _
          | succ i2 =>
            exact hall i2 (by simpa using hi)
      · refine Or.inr ⟨j2 + 1, by simpa using hj2, ?_, ?_, ?_, ?_⟩
        · rw [heq]
          congr 1
          omega
        · exact lt_trans hfp hgt
        · intro i hi hlt
          cases i with
          | zero => exact hgt
          | succ i2 =>
            exact hstrict i2 (by simpa using hi) (by omega)
        · intro i hi
          cases i with
          | zero => exact le_of_lt hgt
          | succ i2 =>
            exact hall i2 (by simpa using hi)
    · rw [if_neg hfp]
      have hfple : f p ≤ b.2 := not_lt.mp hfp
      rcases bestFrom_cases f ps (k + 1) b with
        ⟨heq, hall⟩ | ⟨j2, hj2, heq, hgt, hstrict, hall⟩
      · refine Or.inl ⟨heq, ?_⟩
        intro j hj
        cases j with
        | zero => exact hfple
        | succ j2 => exact hall j2 (by simpa using hj)
      · refine Or.inr ⟨j2 + 1, by simpa using hj2, ?_, hgt, ?_, ?_⟩
        · rw [heq]
          congr 1
          omega
        · intro i hi hlt
          cases i with
          | zero => exact lt_of_le_of_lt hfple hgt
          | succ i2 =>
            exact hstrict i2 (by simpa using hi) (by omega)
        · intro i hi
          cases i with
          | zero => exact le_of_lt (lt_of_le_of_lt hfple hgt)
          | succ i2 =>
            exact hall i2 (by simpa using hi)

theorem determineStartingPlayer_eq_bestFrom
    (players : List ServerPlayer) (piles : List Pile) :
    determineStartingPlayer players piles
      = (bestFrom (fun p => ((playerScore p piles : Nat) : Int))
          players 0 (0, -1)).1 := by
  unfold determineStartingPlayer
  exact congrArg Prod.fst
    (foldl_enumFrom_bestFrom (fun p => ((playerScore p piles : Nat) : Int))
      players 0 (0, -1))

theorem determineStartingPlayer_argmax
    (players : List ServerPlayer) (piles : List Pile)
    (hne : players ≠ []) :
    ∃ hj : determineStartingPlayer players piles < players.length,
      (∀ i (hi : i < players.length),
        i < determineStartingPlayer players piles →
        playerScore (players.get ⟨i, hi⟩) piles
          < playerScore
              (players.get ⟨determineStartingPlayer players piles, hj⟩)
              piles) ∧
      (∀ i (hi : i < players.length),
        playerScore (players.get ⟨i, hi⟩) piles
          ≤ playerScore
              (players.get ⟨determineStartingPlayer players piles, hj⟩)
              piles) := by
  rw [determineStartingPlayer_eq_bestFrom]
  rcases bestFrom_cases (fun p => ((playerScore p piles : Nat) : Int))
      players 0 (0, -1) with ⟨heq, hall⟩ | ⟨j, hj, heq, hgt, hstrict, hall⟩
  · exfalso
    have hpos : 0 < players.length := List.length_pos_of_ne_nil hne
    have := hall 0 hpos
    simp only at this
    omega
  · rw [heq]
    simp only [Nat.zero_add]
    refine ⟨hj, ?_, ?_⟩
    · intro i hi hlt
      have := hstrict i hi hlt
      simp only [Int.ofNat_lt] at this ⊢
      omega
    · intro i hi
      have := hall i hi
      simp only [Int.ofNat_le] at this ⊢
      omega

theorem popHand_spec : ∀ (n : Nat) (deck : List Card),
    (popHand n deck).2 = deck.take (deck.length - n) ∧
    (popHand n deck).1.length = min n deck.length ∧
    ∀ c ∈ (popHand n deck).1, c ∈ deck
  | 0, deck => ⟨by simp [popHand], by simp [popHand], by simp [popHand]⟩
  | n + 1, deck => by
    unfold popHand
    cases hlast : deck.getLast? with
    | none =>
      have hdeck : deck = [] := by simpa using hlast
      subst hdeck
      exact ⟨by simp, by simp, by simp⟩
    | some c =>
      have hne : deck ≠ [] := by
        intro hcontr
        subst hcontr
        simp at hlast
      have hdl : deck.dropLast.length = deck.length - 1 :=
        List.length_dropLast deck
      have hpos : 0 < deck.length := List.length_pos_of_ne_nil hne
      obtain ⟨h2, hlen, hmem⟩ := popHand_spec n deck.dropLast
      refine ⟨?_, ?_, ?_⟩
      · simp only
        rw [h2, hdl, List.dropLast_eq_take, List.take_take]
        congr 1
        omega
      · simp only [List.length_cons, hlen, hdl]
        omega
      · intro x hx
        simp only [List.mem_cons] at hx
        rcases hx with rfl | hx2
        · have hgl : deck.getLast hne = x := by
            rw [List.getLast?_eq_getLast deck hne] at hlast
            simpa using hlast
          exact hgl ▸ List.getLast_mem hne
        · exact (List.dropLast_sublist deck).subset (hmem x hx2)

theorem dealPlayers_spec :
    ∀ (pd : List (String × String × String)) (deck : List Card)
      (handSize : Nat), pd.length * handSize ≤ deck.length →
      (dealPlayers handSize pd deck).1.length = pd.length ∧
      (dealPlayers handSize pd deck).2
        = deck.take (deck.length - pd.length * handSize) ∧
      (dealPlayers handSize pd deck).1.map (fun p => p.id)
        = pd.map (fun d => d.1) ∧
      ∀ p ∈ (dealPlayers handSize pd deck).1,
        p.isCurrentPlayer = false ∧
        p.hand.length = handSize ∧
        p.hand.Pairwise (fun a b => a.value ≤ b.value) ∧
        ∀ c ∈ p.hand, c ∈ deck
  | [], deck, handSize, h => by
    refine ⟨rfl, ?_, rfl, by simp [dealPlayers]⟩
    simp [dealPlayers]
  | d :: ds, deck, handSize, h => by
    have hlen : (d :: ds).length * handSize = ds.length * handSize + handSize := by
      simp [List.length_cons]
      ring
    have hhs : handSize ≤ deck.length := by
      rw [hlen] at h
      omega
    obtain ⟨hp2, hplen, hpmem⟩ := popHand_spec handSize deck
    have hdeck2len : (popHand handSize deck).2.length
        = deck.length - handSize := by
      rw [hp2, List.length_take]
      omega
    have hih := dealPlayers_spec ds (popHand handSize deck).2 handSize
      (by rw [hdeck2len]; rw [hlen] at h; omega)
    obtain ⟨ih1, ih2, ih3, ih4⟩ := hih
    unfold dealPlayers
    refine ⟨?_, ?_, ?_, ?_⟩
    · simp only [List.length_cons, ih1]
    · rw [ih2, hdeck2len, hp2, List.take_take]
      congr 1
      omega
    · simp only [List.map_cons, ih3]
    · intro p hp
      simp only [List.mem_cons] at hp
      rcases hp with rfl | hp2m
      · refine ⟨rfl, ?_, sortHand_sorted _, ?_⟩
        · rw [sortHand_length, hplen]
          omega
        · intro cc hcc
          exact hpmem cc ((sortHand_perm _).mem_iff.mp hcc)
      · obtain ⟨hf, hl, hs, hm⟩ := ih4 p hp2m
        refine ⟨hf, hl, hs, ?_⟩
        intro cc hcc
        have := hm cc hcc
        rw [hp2] at this
        exact List.take_subset _ _ this

theorem filter_length_set_true {α : Type} (p : α → Bool) :
    ∀ (l : List α) (i : Nat) (x : α), (∀ a ∈ l, p a = false) →
      p x = true → i < l.length →
      ((l.set i x).filter p).length = 1
  | [], i, x, hall, hx, hi => absurd hi (by simp)
  | a :: t, 0, x, hall, hx, hi => by
    rw [List.set_cons_zero, List.filter_cons, if_pos (by simp [hx])]
    have : t.filter p = [] := by
      rw [List.filter_eq_nil_iff]
      intro b hb
      simp [hall b (List.mem_cons_of_mem a hb)]
    simp [this]
  | a :: t, i + 1, x, hall, hx, hi => by
    rw [List.set_cons_succ, List.filter_cons,
      if_neg (by simp [hall a (List.mem_cons_self a t)])]
    exact filter_length_set_true p t i x
      (fun b hb => hall b (List.mem_cons_of_mem a hb)) hx (by simpa using hi)

theorem canPlay_initial (c : Card) (h2 : 2 ≤ c.value) (h99 : c.value ≤ 99) :
    (createInitialPiles.filter (fun p => canPlayCard c p)).length = 4 ∧
    createInitialPiles.any (fun p => canPlayCard c p) = true := by
  have hplay : ∀ pile ∈ createInitialPiles, canPlayCard c pile = true := by
    intro pile hp
    fin_cases hp <;> simp [canPlayCard] <;> omega
  constructor
  · rw [List.filter_eq_self.mpr hplay]
    rfl
  · rw [List.any_eq_true]
    have hmem : createInitialPiles.get ⟨0, by simp [createInitialPiles]⟩
        ∈ createInitialPiles := List.get_mem _ 0 _
    exact ⟨_, hmem, hplay _ hmem⟩

theorem playerScore_eq_spec (p : ServerPlayer)
    (hvals : ∀ c ∈ p.hand, 2 ≤ c.value ∧ c.value ≤ 99) :
    playerScore p createInitialPiles
      = specPlayerScore p createInitialPiles + 3 * p.hand.length := by
  unfold playerScore specPlayerScore
  have h1 : (p.hand.map
      (fun c => (createInitialPiles.filter (fun pl => canPlayCard c pl)).length)).sum
      = 4 * p.hand.length := by
    have hmapc : p.hand.map
        (fun c => (createInitialPiles.filter (fun pl => canPlayCard c pl)).length)
        = p.hand.map (fun _ => 4) := by
      apply List.map_congr_left
      intro c hc
      exact (canPlay_initial c (hvals c hc).1 (hvals c hc).2).1
    rw [hmapc, List.map_const', List.sum_replicate, smul_eq_mul]
    omega
  have h2 : (p.hand.filter
      (fun c => createInitialPiles.any (fun pl => canPlayCard c pl))).length
      = p.hand.length := by
    rw [List.filter_eq_self.mpr]
    intro c hc
    exact (canPlay_initial c (hvals c hc).1 (hvals c hc).2).2
  rw [h1, h2]
  omega

theorem sum_set_nat : ∀ (xs : List Nat) (j : Nat) (v : Nat)
    (hj : j < xs.length),
    (xs.set j v).sum + xs.get ⟨j, hj⟩ = xs.sum + v
  | [], j, v, hj => absurd hj (by simp)
  | x :: xs, 0, v, hj => by
    simp only [List.set_cons_zero, List.sum_cons, List.get]
    omega
  | x :: xs, j + 1, v, hj => by
    simp only [List.set_cons_succ, List.sum_cons, List.get]
    have := sum_set_nat xs j v (by simpa using hj)
    omega

theorem updateFirst_map_of_fixed {α β : Type} (p : α → Bool) (g : α → β)
    (f : α → α) (hf : ∀ a, g (f a) = g a) :
    ∀ l : List α, (updateFirst p f l).map g = l.map g
  | [] => rfl
  | a :: as => by
    unfold updateFirst
    split
    · simp [hf]
    · simpa using updateFirst_map_of_fixed p g f hf as

theorem findIdx?_beq_of_nodup (l : List String) (i : Nat) (hi : i < l.length)
    (hnd : l.Nodup) :
    l.findIdx? (fun x => x == l.get ⟨i, hi⟩) = some i := by
  rw [List.findIdx?_eq_some_iff_getElem]
  refine ⟨hi, by simp [List.get_eq_getElem], ?_⟩
  intro j hji
  have hj : j < l.length := Nat.lt_trans hji hi
  simp only [beq_eq_false_iff_ne, ne_eq, Bool.not_eq_true]
  rw [List.get_eq_getElem]
  simp only [beq_eq_false_iff_ne, ne_eq]
  intro hcontr
  have := List.Nodup.getElem_inj_iff hnd |>.mp hcontr
  omega

theorem handsTotal_map (ps : List ServerPlayer) :
    handsTotal ps = (ps.map (fun p => p.hand.length)).sum := rfl

theorem sum_map_modify {α : Type} (g : α → Nat) (f : α → α) :
    ∀ (l : List α) (j : Nat) (hj : j < l.length),
      ((l.modify f j).map g).sum + g (l.get ⟨j, hj⟩)
        = (l.map g).sum + g (f (l.get ⟨j, hj⟩))
  | [], j, hj => absurd hj (by simp)
  | a :: t, 0, hj => by
    simp only [List.modify_zero_cons, List.map_cons, List.sum_cons, List.get]
    omega
  | a :: t, j + 1, hj => by
    simp only [List.modify_succ_cons, List.map_cons, List.sum_cons, List.get]
    have := sum_map_modify g f t j (by simpa using hj)
    omega

theorem map_modify_set {α β : Type} (g : α → β) (f : α → α) (b : β)
    (hb : ∀ a, g (f a) = b) :
    ∀ (l : List α) (k : Nat), k < l.length →
      (l.modify f k).map g = (l.map g).set k b
  | [], k, hk => absurd hk (by simp)
  | a :: t, 0, _ => by
    simp [List.modify_zero_cons, hb]
  | a :: t, k + 1, hk => by
    rw [List.modify_succ_cons, List.map_cons, List.map_cons,
      map_modify_set g f b hb t k (by simpa using hk), List.set_cons_succ]

theorem handsTotal_set : ∀ (ps : List ServerPlayer) (i : Nat)
    (q : ServerPlayer) (hi : i < ps.length),
    handsTotal (ps.set i q) + (ps.get ⟨i, hi⟩).hand.length
      = handsTotal ps + q.hand.length
  | [], i, q, hi => absurd hi (by simp)
  | a :: t, 0, q, hi => by
    simp only [List.set_cons_zero, handsTotal, List.map_cons, List.sum_cons,
      List.get]
    omega
  | a :: t, i + 1, q, hi => by
    simp only [List.set_cons_succ, handsTotal, List.map_cons, List.sum_cons,
      List.get]
    have := handsTotal_set t i q (by simpa using hi)
    simp only [handsTotal] at this
    omega

/-- The turn-advancement core of `endTurn`: flipping the current-turn
flag off at the resolved seat and on at the circular successor keeps the
id roster and the hand sizes, and moves the unique flag to the seat the
new `currentPlayerId` resolves to. -/
theorem CoreInv_turnSwap (old base players2 : List ServerPlayer)
    (curId : String) (i : Nat) (np : ServerPlayer)
    (hidx : old.findIdx? (fun p => p.id == curId) = some i)
    (hids : base.map (fun p => p.id) = old.map (fun p => p.id))
    (hflags : base.map (fun p => p.isCurrentPlayer)
      = old.map (fun p => p.isCurrentPlayer))
    (hnd : (old.map (fun p => p.id)).Nodup)
    (hflaginv : ∃ i0, i0 < old.length ∧
      (old.map (fun p => p.id)).findIdx? (fun x => x == curId) = some i0 ∧
      old.map (fun p => p.isCurrentPlayer)
        = (List.replicate old.length false).set i0 true)
    (hp2 : players2
      = (base.modify (fun p => { p with isCurrentPlayer := false }) i).modify
          (fun p => { p with isCurrentPlayer := true }) ((i + 1) % base.length))
    (hnp : players2[(i + 1) % base.length]? = some np) :
    players2.map (fun p => p.id) = old.map (fun p => p.id) ∧
    players2.map (fun p => p.hand.length) = base.map (fun p => p.hand.length) ∧
    players2.length = old.length ∧
    ∃ j, j < players2.length ∧
      (players2.map (fun p => p.id)).findIdx? (fun x => x == np.id) = some j ∧
      players2.map (fun p => p.isCurrentPlayer)
        = (List.replicate players2.length false).set j true := by
  have hi : i < old.length := (List.findIdx?_eq_some_iff_getElem.mp hidx).1
  have hblen : base.length = old.length := by
    have h0 := congrArg List.length hids
    simpa using h0
  have hnext : (i + 1) % base.length < base.length :=
    Nat.mod_lt _ (by omega)
  have hids2 : players2.map (fun p => p.id) = old.map (fun p => p.id) := by
    rw [hp2,
      map_modify_of_fixed (fun p : ServerPlayer => p.id)
        (fun p : ServerPlayer => { p with isCurrentPlayer := true })
        (fun a => rfl),
      map_modify_of_fixed (fun p : ServerPlayer => p.id)
        (fun p : ServerPlayer => { p with isCurrentPlayer := false })
        (fun a => rfl),
      hids]
  have hhands2 : players2.map (fun p => p.hand.length)
      = base.map (fun p => p.hand.length) := by
    rw [hp2,
      map_modify_of_fixed (fun p : ServerPlayer => p.hand.length)
        (fun p : ServerPlayer => { p with isCurrentPlayer := true })
        (fun a => rfl),
      map_modify_of_fixed (fun p : ServerPlayer => p.hand.length)
        (fun p : ServerPlayer => { p with isCurrentPlayer := false })
        (fun a => rfl)]
  have hlen2 : players2.length = old.length := by
    have h0 := congrArg List.length hids2
    simpa using h0
  refine ⟨hids2, hhands2, hlen2, (i + 1) % base.length, by omega, ?_, ?_⟩
  · have hnplt : (i + 1) % base.length < players2.length := by omega
    have hidlt : (i + 1) % base.length
        < (players2.map (fun p => p.id)).length := by
      rw [List.length_map]
      exact hnplt
    have hidnp : (players2.map (fun p => p.id))[(i + 1) % base.length]?
        = some np.id := by
      simp [List.getElem?_map, hnp]
    have hget : (players2.map (fun p => p.id)).get ⟨(i + 1) % base.length, hidlt⟩
        = np.id := by
      have h0 := List.getElem?_eq_getElem hidlt
      rw [hidnp] at h0
      exact (Option.some.inj h0).symm
    have hndp : (players2.map (fun p => p.id)).Nodup := by
      rw [hids2]
      exact hnd
    rw [← hget]
    exact findIdx?_beq_of_nodup _ _ hidlt hndp
  · obtain ⟨i0, hi0, hfind0, hflags0⟩ := hflaginv
    have hi0i : i = i0 := by
      rw [List.findIdx?_map] at hfind0
      have h0 : old.findIdx? (fun p => p.id == curId) = some i0 := by
        simpa [Function.comp] using hfind0
      rw [hidx] at h0
      exact Option.some.inj h0
    subst hi0i
    have hilt : i < base.length := by omega
    have hmodlen : (base.modify (fun p => { p with isCurrentPlayer := false })
        i).length = base.length := List.length_modify ..
    have hstep2 : players2.map (fun p => p.isCurrentPlayer)
        = ((base.map (fun p => p.isCurrentPlayer)).set i false).set
            ((i + 1) % base.length) true := by
      rw [hp2,
        map_modify_set (fun p : ServerPlayer => p.isCurrentPlayer)
          (fun p : ServerPlayer => { p with isCurrentPlayer := true }) true
          (fun a => rfl) _ _ (by rw [hmodlen]; exact hnext),
        map_modify_set (fun p : ServerPlayer => p.isCurrentPlayer)
          (fun p : ServerPlayer => { p with isCurrentPlayer := false }) false
          (fun a => rfl) base i hilt]
    rw [hstep2, hflags, hflags0, List.set_set, List.set_replicate_self, hlen2]

theorem StateInv_init (roomId : String)
    (pd : List (String × String × String)) (deck : List Card)
    (s : ServerGameState)
    (hnd : (pd.map (fun d => d.1)).Nodup) (hsd : StandardDeck deck)
    (hrun : initializeGame roomId pd deck = .ok s) : StateInv s := by
  have hdlen : deck.length = 98 := by
    have := hsd.length_eq
    simpa using this
  by_cases hv : (pd.length < 1 || pd.length > 5) = true
  · exfalso
    unfold initializeGame at hrun
    rw [if_pos hv] at hrun
    exact absurd hrun (by simp)
  · have hcnt : 1 ≤ pd.length ∧ pd.length ≤ 5 := by
      simp only [Bool.or_eq_true, decide_eq_true_eq] at hv
      omega
    have hbound : pd.length * getStartingHandSize pd.length ≤ 98 := by
      unfold getStartingHandSize
      split_ifs <;> omega
    obtain ⟨dl1, dl2, dlids, dl4⟩ :=
      dealPlayers_spec pd deck (getStartingHandSize pd.length) (by omega)
    have hne : (dealPlayers (getStartingHandSize pd.length) pd deck).1 ≠ [] := by
      intro hcontr
      rw [hcontr] at dl1
      simp at dl1
      omega
    obtain ⟨hjlt, -, -⟩ :=
      determineStartingPlayer_argmax (dealPlayers (getStartingHandSize pd.length) pd deck).1 createInitialPiles hne
    have hsp : (dealPlayers (getStartingHandSize pd.length) pd deck).1[determineStartingPlayer (dealPlayers (getStartingHandSize pd.length) pd deck).1 createInitialPiles]? = some ((dealPlayers (getStartingHandSize pd.length) pd deck).1.get ⟨determineStartingPlayer (dealPlayers (getStartingHandSize pd.length) pd deck).1 createInitialPiles, hjlt⟩) := by
      rw [List.getElem?_eq_getElem hjlt]
      rfl
    unfold initializeGame at hrun
    rw [if_neg hv] at hrun
    simp only [hsp] at hrun
    have hs : s
        = { id := roomId, status := .playing,
            currentPlayerId := ((dealPlayers (getStartingHandSize pd.length) pd deck).1.get ⟨determineStartingPlayer (dealPlayers (getStartingHandSize pd.length) pd deck).1 createInitialPiles, hjlt⟩).id,
            piles := createInitialPiles, deck := (dealPlayers (getStartingHandSize pd.length) pd deck).2,
            cardsPlayed := 0, minCardsToPlay := 2, isDeckEmpty := false,
            moveHistory := [], canUndo := false, maxPlayers := 5,
            players := (dealPlayers (getStartingHandSize pd.length) pd deck).1.set (determineStartingPlayer (dealPlayers (getStartingHandSize pd.length) pd deck).1 createInitialPiles) { (dealPlayers (getStartingHandSize pd.length) pd deck).1.get ⟨determineStartingPlayer (dealPlayers (getStartingHandSize pd.length) pd deck).1 createInitialPiles, hjlt⟩ with isCurrentPlayer := true } } :=
      ((Except.ok.injEq _ _).mp hrun).symm
    subst hs
    have hids : ((dealPlayers (getStartingHandSize pd.length) pd deck).1.set (determineStartingPlayer (dealPlayers (getStartingHandSize pd.length) pd deck).1 createInitialPiles) { (dealPlayers (getStartingHandSize pd.length) pd deck).1.get ⟨determineStartingPlayer (dealPlayers (getStartingHandSize pd.length) pd deck).1 createInitialPiles, hjlt⟩ with isCurrentPlayer := true }).map (fun p => p.id)
        = (dealPlayers (getStartingHandSize pd.length) pd deck).1.map (fun p => p.id) := by
      apply map_set_eq_of_getElem
      intro a ha
      rw [hsp] at ha
      obtain rfl : (dealPlayers (getStartingHandSize pd.length) pd deck).1.get ⟨determineStartingPlayer (dealPlayers (getStartingHandSize pd.length) pd deck).1 createInitialPiles, hjlt⟩ = a := by simpa using ha
      rfl
    have hhands : ((dealPlayers (getStartingHandSize pd.length) pd deck).1.set (determineStartingPlayer (dealPlayers (getStartingHandSize pd.length) pd deck).1 createInitialPiles) { (dealPlayers (getStartingHandSize pd.length) pd deck).1.get ⟨determineStartingPlayer (dealPlayers (getStartingHandSize pd.length) pd deck).1 createInitialPiles, hjlt⟩ with isCurrentPlayer := true }).map (fun p => p.hand.length)
        = (dealPlayers (getStartingHandSize pd.length) pd deck).1.map (fun p => p.hand.length) := by
      apply map_set_eq_of_getElem
      intro a ha
      rw [hsp] at ha
      obtain rfl : (dealPlayers (getStartingHandSize pd.length) pd deck).1.get ⟨determineStartingPlayer (dealPlayers (getStartingHandSize pd.length) pd deck).1 createInitialPiles, hjlt⟩ = a := by simpa using ha
      rfl
    have hdealhands : (dealPlayers (getStartingHandSize pd.length) pd deck).1.map (fun p => p.hand.length)
        = List.replicate pd.length (getStartingHandSize pd.length) := by
      rw [List.eq_replicate_iff]
      refine ⟨by rw [List.length_map, dl1], ?_⟩
      intro x hx
      obtain ⟨q, hq, rfl⟩ := List.mem_map.mp hx
      exact (dl4 q hq).2.1
    have hflags : ((dealPlayers (getStartingHandSize pd.length) pd deck).1.set (determineStartingPlayer (dealPlayers (getStartingHandSize pd.length) pd deck).1 createInitialPiles) { (dealPlayers (getStartingHandSize pd.length) pd deck).1.get ⟨determineStartingPlayer (dealPlayers (getStartingHandSize pd.length) pd deck).1 createInitialPiles, hjlt⟩ with isCurrentPlayer := true }).map (fun p => p.isCurrentPlayer)
        = (List.replicate (dealPlayers (getStartingHandSize pd.length) pd deck).1.length false).set (determineStartingPlayer (dealPlayers (getStartingHandSize pd.length) pd deck).1 createInitialPiles) true := by
      rw [List.map_set]
      congr 1
      rw [List.eq_replicate_iff]
      refine ⟨by rw [List.length_map], ?_⟩
      intro x hx
      obtain ⟨q, hq, rfl⟩ := List.mem_map.mp hx
      exact (dl4 q hq).1
    refine ⟨⟨?_, ?_, ?_⟩, ?_⟩
    · show handsTotal ((dealPlayers (getStartingHandSize pd.length) pd deck).1.set (determineStartingPlayer (dealPlayers (getStartingHandSize pd.length) pd deck).1 createInitialPiles) { (dealPlayers (getStartingHandSize pd.length) pd deck).1.get ⟨determineStartingPlayer (dealPlayers (getStartingHandSize pd.length) pd deck).1 createInitialPiles, hjlt⟩ with isCurrentPlayer := true }) + (dealPlayers (getStartingHandSize pd.length) pd deck).2.length
          + pilesTotal createInitialPiles = 98
      have h1 : handsTotal ((dealPlayers (getStartingHandSize pd.length) pd deck).1.set (determineStartingPlayer (dealPlayers (getStartingHandSize pd.length) pd deck).1 createInitialPiles) { (dealPlayers (getStartingHandSize pd.length) pd deck).1.get ⟨determineStartingPlayer (dealPlayers (getStartingHandSize pd.length) pd deck).1 createInitialPiles, hjlt⟩ with isCurrentPlayer := true })
          = pd.length * getStartingHandSize pd.length := by
        unfold handsTotal
        rw [hhands, hdealhands, List.sum_replicate, smul_eq_mul]
      have h2 : (dealPlayers (getStartingHandSize pd.length) pd deck).2.length = 98 - pd.length * getStartingHandSize pd.length := by
        rw [dl2, List.length_take, hdlen]
        omega
      have h3 : pilesTotal createInitialPiles = 0 := rfl
      omega
    · show (((dealPlayers (getStartingHandSize pd.length) pd deck).1.set (determineStartingPlayer (dealPlayers (getStartingHandSize pd.length) pd deck).1 createInitialPiles) { (dealPlayers (getStartingHandSize pd.length) pd deck).1.get ⟨determineStartingPlayer (dealPlayers (getStartingHandSize pd.length) pd deck).1 createInitialPiles, hjlt⟩ with isCurrentPlayer := true }).map (fun p => p.id)).Nodup
      rw [hids, dlids]
      exact hnd
    · show ∃ i, i < ((dealPlayers (getStartingHandSize pd.length) pd deck).1.set (determineStartingPlayer (dealPlayers (getStartingHandSize pd.length) pd deck).1 createInitialPiles) { (dealPlayers (getStartingHandSize pd.length) pd deck).1.get ⟨determineStartingPlayer (dealPlayers (getStartingHandSize pd.length) pd deck).1 createInitialPiles, hjlt⟩ with isCurrentPlayer := true }).length ∧
        (((dealPlayers (getStartingHandSize pd.length) pd deck).1.set (determineStartingPlayer (dealPlayers (getStartingHandSize pd.length) pd deck).1 createInitialPiles) { (dealPlayers (getStartingHandSize pd.length) pd deck).1.get ⟨determineStartingPlayer (dealPlayers (getStartingHandSize pd.length) pd deck).1 createInitialPiles, hjlt⟩ with isCurrentPlayer := true }).map (fun p => p.id)).findIdx?
          (fun x => x == ((dealPlayers (getStartingHandSize pd.length) pd deck).1.get ⟨determineStartingPlayer (dealPlayers (getStartingHandSize pd.length) pd deck).1 createInitialPiles, hjlt⟩).id) = some i ∧
        ((dealPlayers (getStartingHandSize pd.length) pd deck).1.set (determineStartingPlayer (dealPlayers (getStartingHandSize pd.length) pd deck).1 createInitialPiles) { (dealPlayers (getStartingHandSize pd.length) pd deck).1.get ⟨determineStartingPlayer (dealPlayers (getStartingHandSize pd.length) pd deck).1 createInitialPiles, hjlt⟩ with isCurrentPlayer := true }).map (fun p => p.isCurrentPlayer)
          = (List.replicate ((dealPlayers (getStartingHandSize pd.length) pd deck).1.set (determineStartingPlayer (dealPlayers (getStartingHandSize pd.length) pd deck).1 createInitialPiles) { (dealPlayers (getStartingHandSize pd.length) pd deck).1.get ⟨determineStartingPlayer (dealPlayers (getStartingHandSize pd.length) pd deck).1 createInitialPiles, hjlt⟩ with isCurrentPlayer := true }).length false).set i true
      refine ⟨determineStartingPlayer (dealPlayers (getStartingHandSize pd.length) pd deck).1 createInitialPiles, ?_, ?_, ?_⟩
      · rw [List.length_set]
        exact hjlt
      · rw [hids]
        have hilen : determineStartingPlayer (dealPlayers (getStartingHandSize pd.length) pd deck).1 createInitialPiles < ((dealPlayers (getStartingHandSize pd.length) pd deck).1.map (fun p => p.id)).length := by
          rw [List.length_map]
          exact hjlt
        have hgetid : ((dealPlayers (getStartingHandSize pd.length) pd deck).1.map (fun p => p.id)).get ⟨determineStartingPlayer (dealPlayers (getStartingHandSize pd.length) pd deck).1 createInitialPiles, hilen⟩ = ((dealPlayers (getStartingHandSize pd.length) pd deck).1.get ⟨determineStartingPlayer (dealPlayers (getStartingHandSize pd.length) pd deck).1 createInitialPiles, hjlt⟩).id := by
          rw [List.get_eq_getElem, List.getElem_map, List.get_eq_getElem]
        rw [← hgetid]
        apply findIdx?_beq_of_nodup
        rw [dlids]
        exact hnd
      · rw [hflags, List.length_set]
    · intro c hc
      exact absurd hc (by simp)

theorem StateInv_playCard (s s' : ServerGameState) (pid cid plid : String)
    (hinv : StateInv s) (h : playCard s pid cid plid = .ok s') :
    StateInv s' := by
  obtain ⟨⟨htot, hnd, hflag⟩, hhist⟩ := hinv
  have htot' : handsTotal s.players + s.deck.length + pilesTotal s.piles = 98 :=
    htot
  have hnd' : (s.players.map (fun p => p.id)).Nodup := hnd
  have hflag' : ∃ i0, i0 < s.players.length ∧
      (s.players.map (fun p => p.id)).findIdx?
        (fun x => x == s.currentPlayerId) = some i0 ∧
      s.players.map (fun p => p.isCurrentPlayer)
        = (List.replicate s.players.length false).set i0 true := hflag
  obtain ⟨player, pile, card, hfp, hfpile, hpidcur, hfc, hcan, hs'⟩ :=
    playCard_ok_inv h
  subst hs'
  obtain ⟨hundo, hmh, hstat, hdeck, hcpid, hplayers, hpiles⟩ :=
    playCardSuccess_fields s pid cid plid card
  obtain ⟨j, hj, hidxj, hgetj⟩ :=
    find?_findIdx (fun p => p.id == pid) s.players player hfp
  obtain ⟨k, hk, hidxk, hgetk⟩ :=
    find?_findIdx (fun p => p.id == plid) s.piles pile hfpile
  have hplayers2 : (playCardSuccess s pid cid plid card).players
      = s.players.modify
          (fun p => { p with hand := p.hand.eraseP (fun c => c.id == cid) })
          j := by
    rw [hplayers, updateFirst_eq_modify _ _ _ _ hidxj]
  have hpiles2 : (playCardSuccess s pid cid plid card).piles
      = s.piles.modify
          (fun pl =>
            { pl with cards := pl.cards ++ [card], currentValue := card.value })
          k := by
    rw [hpiles, updateFirst_eq_modify _ _ _ _ hidxk]
  have hmemc : card ∈ player.hand := List.mem_of_find?_eq_some hfc
  have hpredc : (fun c : Card => c.id == cid) card = true :=
    @List.find?_some Card (fun c => c.id == cid) card player.hand hfc
  have herase : (player.hand.eraseP (fun c => c.id == cid)).length + 1
      = player.hand.length :=
    List.length_eraseP_add_one hmemc hpredc
  have hhandsum : handsTotal (playCardSuccess s pid cid plid card).players
      + player.hand.length
      = handsTotal s.players
        + (player.hand.eraseP (fun c => c.id == cid)).length := by
    rw [hplayers2]
    have h0 := sum_map_modify (fun p : ServerPlayer => p.hand.length)
      (fun p : ServerPlayer =>
        { p with hand := p.hand.eraseP (fun c => c.id == cid) })
      s.players j hj
    rw [hgetj] at h0
    exact h0
  have hpilesum : pilesTotal (playCardSuccess s pid cid plid card).piles
      + pile.cards.length
      = pilesTotal s.piles + (pile.cards ++ [card]).length := by
    rw [hpiles2]
    have h0 := sum_map_modify (fun pl : Pile => pl.cards.length)
      (fun pl : Pile =>
        { pl with cards := pl.cards ++ [card], currentValue := card.value })
      s.piles k hk
    rw [hgetk] at h0
    exact h0
  have happ : (pile.cards ++ [card]).length = pile.cards.length + 1 := by simp
  have hids3 : (playCardSuccess s pid cid plid card).players.map
      (fun p => p.id) = s.players.map (fun p => p.id) := by
    rw [hplayers, updateFirst_map_of_fixed (fun p => p.id == pid)
      (fun p : ServerPlayer => p.id)
      (fun p : ServerPlayer =>
        { p with hand := p.hand.eraseP (fun c => c.id == cid) })
      (fun a => rfl)]
  have hflags3 : (playCardSuccess s pid cid plid card).players.map
      (fun p => p.isCurrentPlayer)
      = s.players.map (fun p => p.isCurrentPlayer) := by
    rw [hplayers, updateFirst_map_of_fixed (fun p => p.id == pid)
      (fun p : ServerPlayer => p.isCurrentPlayer)
      (fun p : ServerPlayer =>
        { p with hand := p.hand.eraseP (fun c => c.id == cid) })
      (fun a => rfl)]
  have hlen3 : (playCardSuccess s pid cid plid card).players.length
      = s.players.length := by
    have h0 := congrArg List.length hids3
    simpa using h0
  refine ⟨⟨?_, ?_, ?_⟩, ?_⟩
  · show handsTotal (playCardSuccess s pid cid plid card).players
      + (playCardSuccess s pid cid plid card).deck.length
      + pilesTotal (playCardSuccess s pid cid plid card).piles = 98
    rw [hdeck]
    omega
  · show ((playCardSuccess s pid cid plid card).players.map
      (fun p => p.id)).Nodup
    rw [hids3]
    exact hnd'
  · show ∃ k2, k2 < (playCardSuccess s pid cid plid card).players.length ∧
      ((playCardSuccess s pid cid plid card).players.map
        (fun p => p.id)).findIdx?
        (fun x => x == (playCardSuccess s pid cid plid card).currentPlayerId)
        = some k2 ∧
      (playCardSuccess s pid cid plid card).players.map
        (fun p => p.isCurrentPlayer)
        = (List.replicate (playCardSuccess s pid cid plid card).players.length
            false).set k2 true
    obtain ⟨i0, hi0, hfind0, hflags0⟩ := hflag'
    refine ⟨i0, ?_, ?_, ?_⟩
    · rw [hlen3]
      exact hi0
    · rw [hids3, hcpid]
      exact hfind0
    · rw [hflags3, hlen3]
      exact hflags0
  · intro c hc
    rw [hmh] at hc
    rcases (saveStateToHistory_facts s).2.2 c hc with h1 | h1
    · subst h1
      exact ⟨htot', hnd', hflag'⟩
    · exact hhist c h1

theorem StateInv_undo (s s' : ServerGameState) (hinv : StateInv s)
    (h : undoLastMove s = .ok s') : StateInv s' := by
  obtain ⟨-, hhist⟩ := hinv
  by_cases hc : (!s.canUndo || s.moveHistory.isEmpty) = true
  · exfalso
    unfold undoLastMove at h
    rw [if_pos hc] at h
    exact absurd h (by simp)
  · cases hlast : s.moveHistory.getLast? with
    | none =>
      exfalso
      unfold undoLastMove at h
      rw [if_neg hc, hlast] at h
      exact absurd h (by simp)
    | some prev =>
      have hrun : undoLastMove s = .ok (prev.toState s.moveHistory.dropLast
          (decide (s.moveHistory.dropLast.length > 0))) := by
        unfold undoLastMove
        rw [if_neg hc, hlast]
      have hs' : prev.toState s.moveHistory.dropLast
          (decide (s.moveHistory.dropLast.length > 0)) = s' :=
        (Except.ok.injEq _ _).mp (hrun.symm.trans h)
      subst hs'
      constructor
      · have hcore : (GameCore.toState prev s.moveHistory.dropLast
            (decide (s.moveHistory.dropLast.length > 0))).toCore = prev := rfl
        rw [hcore]
        exact hhist prev (List.mem_of_mem_getLast? hlast)
      · intro c hc2
        exact hhist c ((List.dropLast_sublist s.moveHistory).subset hc2)

theorem StateInv_endTurn (s s' : ServerGameState) (hinv : StateInv s)
    (h : endTurn s = .ok s') : StateInv s' := by
  obtain ⟨⟨htot, hnd, hflag⟩, hhist⟩ := hinv
  have htot' : handsTotal s.players + s.deck.length + pilesTotal s.piles = 98 :=
    htot
  have hnd' : (s.players.map (fun p => p.id)).Nodup := hnd
  have hflag' : ∃ i0, i0 < s.players.length ∧
      (s.players.map (fun p => p.id)).findIdx?
        (fun x => x == s.currentPlayerId) = some i0 ∧
      s.players.map (fun p => p.isCurrentPlayer)
        = (List.replicate s.players.length false).set i0 true := hflag
  by_cases hmin : s.cardsPlayed < s.minCardsToPlay
  · exfalso
    unfold endTurn at h
    rw [if_pos hmin] at h
    exact absurd h (by simp)
  cases hidx : s.players.findIdx? (fun p => p.id == s.currentPlayerId) with
  | none =>
    exfalso
    unfold endTurn at h
    rw [if_neg hmin, hidx] at h
    exact absurd h (by simp)
  | some i =>
  have hi : i < s.players.length := (List.findIdx?_eq_some_iff_getElem.mp hidx).1
  have hn : 0 < s.players.length := by omega
  have hcur : s.players[i]? = some (s.players.get ⟨i, hi⟩) := by
    rw [List.getElem?_eq_getElem hi]
    rfl
  by_cases hcond : (!s.isDeckEmpty && decide (s.deck.length > 0)) = true
  · -- the current player draws back up before the turn advances
    have hsetlen : (s.players.set i { s.players.get ⟨i, hi⟩ with hand := sortHand (drawCards (s.players.get ⟨i, hi⟩).hand s.deck (getStartingHandSize s.players.length)).1 }).length = s.players.length := List.length_set ..
    have hp1lenB : ((s.players.set i { s.players.get ⟨i, hi⟩ with hand := sortHand (drawCards (s.players.get ⟨i, hi⟩).hand s.deck (getStartingHandSize s.players.length)).1 }).modify (fun p => { p with isCurrentPlayer := false }) i).length = (s.players.set i { s.players.get ⟨i, hi⟩ with hand := sortHand (drawCards (s.players.get ⟨i, hi⟩).hand s.deck (getStartingHandSize s.players.length)).1 }).length := List.length_modify ..
    have hposB : 0 < (s.players.set i { s.players.get ⟨i, hi⟩ with hand := sortHand (drawCards (s.players.get ⟨i, hi⟩).hand s.deck (getStartingHandSize s.players.length)).1 }).length := by
      rw [hsetlen]
      omega
    have hnextlt1B : ((i + 1) % (s.players.set i { s.players.get ⟨i, hi⟩ with hand := sortHand (drawCards (s.players.get ⟨i, hi⟩).hand s.deck (getStartingHandSize s.players.length)).1 }).length) < ((s.players.set i { s.players.get ⟨i, hi⟩ with hand := sortHand (drawCards (s.players.get ⟨i, hi⟩).hand s.deck (getStartingHandSize s.players.length)).1 }).modify (fun p => { p with isCurrentPlayer := false }) i).length := by
      rw [hp1lenB]
      exact Nat.mod_lt _ hposB
    have hnpB : (((s.players.set i { s.players.get ⟨i, hi⟩ with hand := sortHand (drawCards (s.players.get ⟨i, hi⟩).hand s.deck (getStartingHandSize s.players.length)).1 }).modify (fun p => { p with isCurrentPlayer := false }) i).modify (fun p => { p with isCurrentPlayer := true }) ((i + 1) % (s.players.set i { s.players.get ⟨i, hi⟩ with hand := sortHand (drawCards (s.players.get ⟨i, hi⟩).hand s.deck (getStartingHandSize s.players.length)).1 }).length))[((i + 1) % (s.players.set i { s.players.get ⟨i, hi⟩ with hand := sortHand (drawCards (s.players.get ⟨i, hi⟩).hand s.deck (getStartingHandSize s.players.length)).1 }).length)]? = some ({ ((s.players.set i { s.players.get ⟨i, hi⟩ with hand := sortHand (drawCards (s.players.get ⟨i, hi⟩).hand s.deck (getStartingHandSize s.players.length)).1 }).modify (fun p => { p with isCurrentPlayer := false }) i).get ⟨((i + 1) % (s.players.set i { s.players.get ⟨i, hi⟩ with hand := sortHand (drawCards (s.players.get ⟨i, hi⟩).hand s.deck (getStartingHandSize s.players.length)).1 }).length), hnextlt1B⟩ with isCurrentPlayer := true } : ServerPlayer) := by
      rw [List.getElem?_modify, List.getElem?_eq_getElem hnextlt1B]
      simp [List.get_eq_getElem]
    have hrun : endTurn s = .ok
        { s with
          currentPlayerId := ({ ((s.players.set i { s.players.get ⟨i, hi⟩ with hand := sortHand (drawCards (s.players.get ⟨i, hi⟩).hand s.deck (getStartingHandSize s.players.length)).1 }).modify (fun p => { p with isCurrentPlayer := false }) i).get ⟨((i + 1) % (s.players.set i { s.players.get ⟨i, hi⟩ with hand := sortHand (drawCards (s.players.get ⟨i, hi⟩).hand s.deck (getStartingHandSize s.players.length)).1 }).length), hnextlt1B⟩ with isCurrentPlayer := true } : ServerPlayer).id,
          cardsPlayed := 0,
          deck := (drawCards (s.players.get ⟨i, hi⟩).hand s.deck (getStartingHandSize s.players.length)).2,
          status :=
            checkGameStatus
              { s with
                currentPlayerId := ({ ((s.players.set i { s.players.get ⟨i, hi⟩ with hand := sortHand (drawCards (s.players.get ⟨i, hi⟩).hand s.deck (getStartingHandSize s.players.length)).1 }).modify (fun p => { p with isCurrentPlayer := false }) i).get ⟨((i + 1) % (s.players.set i { s.players.get ⟨i, hi⟩ with hand := sortHand (drawCards (s.players.get ⟨i, hi⟩).hand s.deck (getStartingHandSize s.players.length)).1 }).length), hnextlt1B⟩ with isCurrentPlayer := true } : ServerPlayer).id,
                cardsPlayed := 0,
                deck := (drawCards (s.players.get ⟨i, hi⟩).hand s.deck (getStartingHandSize s.players.length)).2,
                players := ((s.players.set i { s.players.get ⟨i, hi⟩ with hand := sortHand (drawCards (s.players.get ⟨i, hi⟩).hand s.deck (getStartingHandSize s.players.length)).1 }).modify (fun p => { p with isCurrentPlayer := false }) i).modify (fun p => { p with isCurrentPlayer := true }) ((i + 1) % (s.players.set i { s.players.get ⟨i, hi⟩ with hand := sortHand (drawCards (s.players.get ⟨i, hi⟩).hand s.deck (getStartingHandSize s.players.length)).1 }).length) },
          canUndo := false,
          players := ((s.players.set i { s.players.get ⟨i, hi⟩ with hand := sortHand (drawCards (s.players.get ⟨i, hi⟩).hand s.deck (getStartingHandSize s.players.length)).1 }).modify (fun p => { p with isCurrentPlayer := false }) i).modify (fun p => { p with isCurrentPlayer := true }) ((i + 1) % (s.players.set i { s.players.get ⟨i, hi⟩ with hand := sortHand (drawCards (s.players.get ⟨i, hi⟩).hand s.deck (getStartingHandSize s.players.length)).1 }).length) } := by
      simp only [endTurn, hidx, hcur, hcond, if_true]
      rw [if_neg hmin, hnpB]
    have hs'eq : ({ s with
          currentPlayerId := ({ ((s.players.set i { s.players.get ⟨i, hi⟩ with hand := sortHand (drawCards (s.players.get ⟨i, hi⟩).hand s.deck (getStartingHandSize s.players.length)).1 }).modify (fun p => { p with isCurrentPlayer := false }) i).get ⟨((i + 1) % (s.players.set i { s.players.get ⟨i, hi⟩ with hand := sortHand (drawCards (s.players.get ⟨i, hi⟩).hand s.deck (getStartingHandSize s.players.length)).1 }).length), hnextlt1B⟩ with isCurrentPlayer := true } : ServerPlayer).id,
          cardsPlayed := 0,
          deck := (drawCards (s.players.get ⟨i, hi⟩).hand s.deck (getStartingHandSize s.players.length)).2,
          status :=
            checkGameStatus
              { s with
                currentPlayerId := ({ ((s.players.set i { s.players.get ⟨i, hi⟩ with hand := sortHand (drawCards (s.players.get ⟨i, hi⟩).hand s.deck (getStartingHandSize s.players.length)).1 }).modify (fun p => { p with isCurrentPlayer := false }) i).get ⟨((i + 1) % (s.players.set i { s.players.get ⟨i, hi⟩ with hand := sortHand (drawCards (s.players.get ⟨i, hi⟩).hand s.deck (getStartingHandSize s.players.length)).1 }).length), hnextlt1B⟩ with isCurrentPlayer := true } : ServerPlayer).id,
                cardsPlayed := 0,
                deck := (drawCards (s.players.get ⟨i, hi⟩).hand s.deck (getStartingHandSize s.players.length)).2,
                players := ((s.players.set i { s.players.get ⟨i, hi⟩ with hand := sortHand (drawCards (s.players.get ⟨i, hi⟩).hand s.deck (getStartingHandSize s.players.length)).1 }).modify (fun p => { p with isCurrentPlayer := false }) i).modify (fun p => { p with isCurrentPlayer := true }) ((i + 1) % (s.players.set i { s.players.get ⟨i, hi⟩ with hand := sortHand (drawCards (s.players.get ⟨i, hi⟩).hand s.deck (getStartingHandSize s.players.length)).1 }).length) },
          canUndo := false,
          players := ((s.players.set i { s.players.get ⟨i, hi⟩ with hand := sortHand (drawCards (s.players.get ⟨i, hi⟩).hand s.deck (getStartingHandSize s.players.length)).1 }).modify (fun p => { p with isCurrentPlayer := false }) i).modify (fun p => { p with isCurrentPlayer := true }) ((i + 1) % (s.players.set i { s.players.get ⟨i, hi⟩ with hand := sortHand (drawCards (s.players.get ⟨i, hi⟩).hand s.deck (getStartingHandSize s.players.length)).1 }).length) } : ServerGameState) = s' :=
      (Except.ok.injEq _ _).mp (hrun.symm.trans h)
    subst hs'eq
    have hids : (s.players.set i { s.players.get ⟨i, hi⟩ with hand := sortHand (drawCards (s.players.get ⟨i, hi⟩).hand s.deck (getStartingHandSize s.players.length)).1 }).map (fun p => p.id) = s.players.map (fun p => p.id) := by
      apply map_set_eq_of_getElem
      intro a ha
      rw [hcur] at ha
      obtain rfl : s.players.get ⟨i, hi⟩ = a := by simpa using ha
      rfl
    have hflagsB : (s.players.set i { s.players.get ⟨i, hi⟩ with hand := sortHand (drawCards (s.players.get ⟨i, hi⟩).hand s.deck (getStartingHandSize s.players.length)).1 }).map (fun p => p.isCurrentPlayer)
        = s.players.map (fun p => p.isCurrentPlayer) := by
      apply map_set_eq_of_getElem
      intro a ha
      rw [hcur] at ha
      obtain rfl : s.players.get ⟨i, hi⟩ = a := by simpa using ha
      rfl
    obtain ⟨hids2, hhands2, hlen2, j, hjlt, hfind, hflags2⟩ :=
      CoreInv_turnSwap s.players (s.players.set i { s.players.get ⟨i, hi⟩ with hand := sortHand (drawCards (s.players.get ⟨i, hi⟩).hand s.deck (getStartingHandSize s.players.length)).1 }) (((s.players.set i { s.players.get ⟨i, hi⟩ with hand := sortHand (drawCards (s.players.get ⟨i, hi⟩).hand s.deck (getStartingHandSize s.players.length)).1 }).modify (fun p => { p with isCurrentPlayer := false }) i).modify (fun p => { p with isCurrentPlayer := true }) ((i + 1) % (s.players.set i { s.players.get ⟨i, hi⟩ with hand := sortHand (drawCards (s.players.get ⟨i, hi⟩).hand s.deck (getStartingHandSize s.players.length)).1 }).length)) s.currentPlayerId i
        ({ ((s.players.set i { s.players.get ⟨i, hi⟩ with hand := sortHand (drawCards (s.players.get ⟨i, hi⟩).hand s.deck (getStartingHandSize s.players.length)).1 }).modify (fun p => { p with isCurrentPlayer := false }) i).get ⟨((i + 1) % (s.players.set i { s.players.get ⟨i, hi⟩ with hand := sortHand (drawCards (s.players.get ⟨i, hi⟩).hand s.deck (getStartingHandSize s.players.length)).1 }).length), hnextlt1B⟩ with isCurrentPlayer := true } : ServerPlayer) hidx hids hflagsB hnd' hflag' rfl hnpB
    have hh2 : handsTotal (((s.players.set i { s.players.get ⟨i, hi⟩ with hand := sortHand (drawCards (s.players.get ⟨i, hi⟩).hand s.deck (getStartingHandSize s.players.length)).1 }).modify (fun p => { p with isCurrentPlayer := false }) i).modify (fun p => { p with isCurrentPlayer := true }) ((i + 1) % (s.players.set i { s.players.get ⟨i, hi⟩ with hand := sortHand (drawCards (s.players.get ⟨i, hi⟩).hand s.deck (getStartingHandSize s.players.length)).1 }).length)) = handsTotal (s.players.set i { s.players.get ⟨i, hi⟩ with hand := sortHand (drawCards (s.players.get ⟨i, hi⟩).hand s.deck (getStartingHandSize s.players.length)).1 }) :=
      congrArg List.sum hhands2
    have hsetsum : handsTotal (s.players.set i { s.players.get ⟨i, hi⟩ with hand := sortHand (drawCards (s.players.get ⟨i, hi⟩).hand s.deck (getStartingHandSize s.players.length)).1 }) + (s.players.get ⟨i, hi⟩).hand.length
        = handsTotal s.players + (sortHand (drawCards (s.players.get ⟨i, hi⟩).hand s.deck (getStartingHandSize s.players.length)).1).length :=
      handsTotal_set s.players i { s.players.get ⟨i, hi⟩ with hand := sortHand (drawCards (s.players.get ⟨i, hi⟩).hand s.deck (getStartingHandSize s.players.length)).1 } hi
    obtain ⟨m, hm, hd2, hd1, hdlen⟩ :=
      drawCards_spec (getStartingHandSize s.players.length) (s.players.get ⟨i, hi⟩).hand s.deck
    have hsl : (sortHand (drawCards (s.players.get ⟨i, hi⟩).hand s.deck (getStartingHandSize s.players.length)).1).length = (drawCards (s.players.get ⟨i, hi⟩).hand s.deck (getStartingHandSize s.players.length)).1.length := sortHand_length _
    have hlen1 : (drawCards (s.players.get ⟨i, hi⟩).hand s.deck (getStartingHandSize s.players.length)).1.length
        = (s.players.get ⟨i, hi⟩).hand.length + (s.deck.length - m) := by
      rw [hd1, List.length_append, List.length_reverse, List.length_drop]
    have hlen2d : (drawCards (s.players.get ⟨i, hi⟩).hand s.deck (getStartingHandSize s.players.length)).2.length = m := by
      rw [hd2, List.length_take]
      omega
    refine ⟨⟨?_, ?_, ?_⟩, ?_⟩
    · show handsTotal (((s.players.set i { s.players.get ⟨i, hi⟩ with hand := sortHand (drawCards (s.players.get ⟨i, hi⟩).hand s.deck (getStartingHandSize s.players.length)).1 }).modify (fun p => { p with isCurrentPlayer := false }) i).modify (fun p => { p with isCurrentPlayer := true }) ((i + 1) % (s.players.set i { s.players.get ⟨i, hi⟩ with hand := sortHand (drawCards (s.players.get ⟨i, hi⟩).hand s.deck (getStartingHandSize s.players.length)).1 }).length)) + (drawCards (s.players.get ⟨i, hi⟩).hand s.deck (getStartingHandSize s.players.length)).2.length + pilesTotal s.piles = 98
      omega
    · show ((((s.players.set i { s.players.get ⟨i, hi⟩ with hand := sortHand (drawCards (s.players.get ⟨i, hi⟩).hand s.deck (getStartingHandSize s.players.length)).1 }).modify (fun p => { p with isCurrentPlayer := false }) i).modify (fun p => { p with isCurrentPlayer := true }) ((i + 1) % (s.players.set i { s.players.get ⟨i, hi⟩ with hand := sortHand (drawCards (s.players.get ⟨i, hi⟩).hand s.deck (getStartingHandSize s.players.length)).1 }).length)).map (fun p => p.id)).Nodup
      rw [hids2]
      exact hnd'
    · show ∃ k, k < (((s.players.set i { s.players.get ⟨i, hi⟩ with hand := sortHand (drawCards (s.players.get ⟨i, hi⟩).hand s.deck (getStartingHandSize s.players.length)).1 }).modify (fun p => { p with isCurrentPlayer := false }) i).modify (fun p => { p with isCurrentPlayer := true }) ((i + 1) % (s.players.set i { s.players.get ⟨i, hi⟩ with hand := sortHand (drawCards (s.players.get ⟨i, hi⟩).hand s.deck (getStartingHandSize s.players.length)).1 }).length)).length ∧
        ((((s.players.set i { s.players.get ⟨i, hi⟩ with hand := sortHand (drawCards (s.players.get ⟨i, hi⟩).hand s.deck (getStartingHandSize s.players.length)).1 }).modify (fun p => { p with isCurrentPlayer := false }) i).modify (fun p => { p with isCurrentPlayer := true }) ((i + 1) % (s.players.set i { s.players.get ⟨i, hi⟩ with hand := sortHand (drawCards (s.players.get ⟨i, hi⟩).hand s.deck (getStartingHandSize s.players.length)).1 }).length)).map (fun p => p.id)).findIdx?
          (fun x => x == ({ ((s.players.set i { s.players.get ⟨i, hi⟩ with hand := sortHand (drawCards (s.players.get ⟨i, hi⟩).hand s.deck (getStartingHandSize s.players.length)).1 }).modify (fun p => { p with isCurrentPlayer := false }) i).get ⟨((i + 1) % (s.players.set i { s.players.get ⟨i, hi⟩ with hand := sortHand (drawCards (s.players.get ⟨i, hi⟩).hand s.deck (getStartingHandSize s.players.length)).1 }).length), hnextlt1B⟩ with isCurrentPlayer := true } : ServerPlayer).id) = some k ∧
        (((s.players.set i { s.players.get ⟨i, hi⟩ with hand := sortHand (drawCards (s.players.get ⟨i, hi⟩).hand s.deck (getStartingHandSize s.players.length)).1 }).modify (fun p => { p with isCurrentPlayer := false }) i).modify (fun p => { p with isCurrentPlayer := true }) ((i + 1) % (s.players.set i { s.players.get ⟨i, hi⟩ with hand := sortHand (drawCards (s.players.get ⟨i, hi⟩).hand s.deck (getStartingHandSize s.players.length)).1 }).length)).map (fun p => p.isCurrentPlayer)
          = (List.replicate (((s.players.set i { s.players.get ⟨i, hi⟩ with hand := sortHand (drawCards (s.players.get ⟨i, hi⟩).hand s.deck (getStartingHandSize s.players.length)).1 }).modify (fun p => { p with isCurrentPlayer := false }) i).modify (fun p => { p with isCurrentPlayer := true }) ((i + 1) % (s.players.set i { s.players.get ⟨i, hi⟩ with hand := sortHand (drawCards (s.players.get ⟨i, hi⟩).hand s.deck (getStartingHandSize s.players.length)).1 }).length)).length false).set k true
      exact ⟨j, hjlt, hfind, hflags2⟩
    · intro c hc
      exact hhist c hc
  · -- the deck is done: the turn advances without drawing
    have hp1len : (s.players.modify (fun p => { p with isCurrentPlayer := false }) i).length = s.players.length := List.length_modify ..
    have hnextlt1 : ((i + 1) % s.players.length) < (s.players.modify (fun p => { p with isCurrentPlayer := false }) i).length := by
      rw [hp1len]
      exact Nat.mod_lt _ hn
    have hnp : ((s.players.modify (fun p => { p with isCurrentPlayer := false }) i).modify (fun p => { p with isCurrentPlayer := true }) ((i + 1) % s.players.length))[((i + 1) % s.players.length)]? = some ({ (s.players.modify (fun p => { p with isCurrentPlayer := false }) i).get ⟨((i + 1) % s.players.length), hnextlt1⟩ with isCurrentPlayer := true } : ServerPlayer) := by
      rw [List.getElem?_modify, List.getElem?_eq_getElem hnextlt1]
      simp [List.get_eq_getElem]
    have hcondF : (!s.isDeckEmpty && decide (s.deck.length > 0)) = false := by
      simpa using hcond
    have hrun : endTurn s = .ok
        { s with
          currentPlayerId := ({ (s.players.modify (fun p => { p with isCurrentPlayer := false }) i).get ⟨((i + 1) % s.players.length), hnextlt1⟩ with isCurrentPlayer := true } : ServerPlayer).id,
          cardsPlayed := 0,
          status :=
            checkGameStatus
              { s with
                currentPlayerId := ({ (s.players.modify (fun p => { p with isCurrentPlayer := false }) i).get ⟨((i + 1) % s.players.length), hnextlt1⟩ with isCurrentPlayer := true } : ServerPlayer).id,
                cardsPlayed := 0,
                players := (s.players.modify (fun p => { p with isCurrentPlayer := false }) i).modify (fun p => { p with isCurrentPlayer := true }) ((i + 1) % s.players.length) },
          canUndo := false,
          players := (s.players.modify (fun p => { p with isCurrentPlayer := false }) i).modify (fun p => { p with isCurrentPlayer := true }) ((i + 1) % s.players.length) } := by
      simp only [endTurn, hidx, hcur, hcondF, Bool.false_eq_true, if_false]
      rw [if_neg hmin, hnp]
    have hs'eq : ({ s with
          currentPlayerId := ({ (s.players.modify (fun p => { p with isCurrentPlayer := false }) i).get ⟨((i + 1) % s.players.length), hnextlt1⟩ with isCurrentPlayer := true } : ServerPlayer).id,
          cardsPlayed := 0,
          status :=
            checkGameStatus
              { s with
                currentPlayerId := ({ (s.players.modify (fun p => { p with isCurrentPlayer := false }) i).get ⟨((i + 1) % s.players.length), hnextlt1⟩ with isCurrentPlayer := true } : ServerPlayer).id,
                cardsPlayed := 0,
                players := (s.players.modify (fun p => { p with isCurrentPlayer := false }) i).modify (fun p => { p with isCurrentPlayer := true }) ((i + 1) % s.players.length) },
          canUndo := false,
          players := (s.players.modify (fun p => { p with isCurrentPlayer := false }) i).modify (fun p => { p with isCurrentPlayer := true }) ((i + 1) % s.players.length) } : ServerGameState) = s' :=
      (Except.ok.injEq _ _).mp (hrun.symm.trans h)
    subst hs'eq
    obtain ⟨hids2, hhands2, hlen2, j, hjlt, hfind, hflags2⟩ :=
      CoreInv_turnSwap s.players s.players ((s.players.modify (fun p => { p with isCurrentPlayer := false }) i).modify (fun p => { p with isCurrentPlayer := true }) ((i + 1) % s.players.length)) s.currentPlayerId i
        ({ (s.players.modify (fun p => { p with isCurrentPlayer := false }) i).get ⟨((i + 1) % s.players.length), hnextlt1⟩ with isCurrentPlayer := true } : ServerPlayer) hidx rfl rfl hnd' hflag' rfl hnp
    have hh2 : handsTotal ((s.players.modify (fun p => { p with isCurrentPlayer := false }) i).modify (fun p => { p with isCurrentPlayer := true }) ((i + 1) % s.players.length)) = handsTotal s.players :=
      congrArg List.sum hhands2
    refine ⟨⟨?_, ?_, ?_⟩, ?_⟩
    · show handsTotal ((s.players.modify (fun p => { p with isCurrentPlayer := false }) i).modify (fun p => { p with isCurrentPlayer := true }) ((i + 1) % s.players.length)) + s.deck.length + pilesTotal s.piles = 98
      omega
    · show (((s.players.modify (fun p => { p with isCurrentPlayer := false }) i).modify (fun p => { p with isCurrentPlayer := true }) ((i + 1) % s.players.length)).map (fun p => p.id)).Nodup
      rw [hids2]
      exact hnd'
    · show ∃ k, k < ((s.players.modify (fun p => { p with isCurrentPlayer := false }) i).modify (fun p => { p with isCurrentPlayer := true }) ((i + 1) % s.players.length)).length ∧
        (((s.players.modify (fun p => { p with isCurrentPlayer := false }) i).modify (fun p => { p with isCurrentPlayer := true }) ((i + 1) % s.players.length)).map (fun p => p.id)).findIdx?
          (fun x => x == ({ (s.players.modify (fun p => { p with isCurrentPlayer := false }) i).get ⟨((i + 1) % s.players.length), hnextlt1⟩ with isCurrentPlayer := true } : ServerPlayer).id) = some k ∧
        ((s.players.modify (fun p => { p with isCurrentPlayer := false }) i).modify (fun p => { p with isCurrentPlayer := true }) ((i + 1) % s.players.length)).map (fun p => p.isCurrentPlayer)
          = (List.replicate ((s.players.modify (fun p => { p with isCurrentPlayer := false }) i).modify (fun p => { p with isCurrentPlayer := true }) ((i + 1) % s.players.length)).length false).set k true
      exact ⟨j, hjlt, hfind, hflags2⟩
    · intro c hc
      exact hhist c hc

theorem StateInv_reachable (P : List (String × String × String) → Prop)
    (hP : ∀ pd, P pd → (pd.map (fun d => d.1)).Nodup)
    (s : ServerGameState) (h : Reachable P s) : StateInv s := by
  induction h with
  | init roomId pd deck s0 hPpd hsd hrun =>
    exact StateInv_init roomId pd deck s0 (hP pd hPpd) hsd hrun
  | play s0 pid cid plid s1 hr hok ih =>
    exact StateInv_playCard s0 s1 pid cid plid ih hok
  | advance s0 s1 hr hok ih =>
    exact StateInv_endTurn s0 s1 ih hok
  | undo s0 s1 hr hok ih =>
    exact StateInv_undo s0 s1 ih hok

/-! ### C1: the move-legality rule -/

/-- C1: `canPlayCard` accepts a card on an ascending pile exactly when its
value strictly exceeds the pile's current value or equals the current
value minus 10, and on a descending pile exactly when its value is
strictly below the current value or equals the current value plus 10;
at an ascending pile showing 45, values 46 and 35 are legal while 44 and
36 are illegal. -/
theorem canPlayCard_legality (card : Card) (pile : Pile) :
    (pile.type = PileType.ascending →
      (canPlayCard card pile = true ↔
        pile.currentValue < card.value ∨ card.value = pile.currentValue - 10)) ∧
    (pile.type = PileType.descending →
      (canPlayCard card pile = true ↔
        card.value < pile.currentValue ∨ card.value = pile.currentValue + 10)) ∧
    (pile.type = PileType.ascending → pile.currentValue = 45 →
      canPlayCard { card with value := 46 } pile = true ∧
      canPlayCard { card with value := 35 } pile = true ∧
      canPlayCard { card with value := 44 } pile = false ∧
      canPlayCard { card with value := 36 } pile = false) := by
  obtain ⟨pid, ptype, psv, pcv, pcards⟩ := pile
  refine ⟨?_, ?_, ?_⟩
  · intro h
    subst h
    simp [canPlayCard]
  · intro h
    subst h
    simp [canPlayCard]
  · intro h hv
    subst h
    subst hv
    refine ⟨?_, ?_, ?_, ?_⟩ <;> simp [canPlayCard]

/-- C1 witness: the legality rule evaluated at the ascending pile showing
45 from the claim's example. -/
theorem canPlayCard_legality_witness :
    canPlayCard { id := "c", value := 46 }
        { id := "a", type := .ascending, startValue := 1, currentValue := 45,
          cards := [] } = true ∧
    canPlayCard { id := "c", value := 35 }
        { id := "a", type := .ascending, startValue := 1, currentValue := 45,
          cards := [] } = true ∧
    canPlayCard { id := "c", value := 44 }
        { id := "a", type := .ascending, startValue := 1, currentValue := 45,
          cards := [] } = false ∧
    canPlayCard { id := "c", value := 36 }
        { id := "a", type := .ascending, startValue := 1, currentValue := 45,
          cards := [] } = false :=
  (canPlayCard_legality { id := "c", value := 0 }
    { id := "a", type := .ascending, startValue := 1, currentValue := 45,
      cards := [] }).2.2 rfl rfl

/-! ### C6: per-recipient state masking -/

/-- C6: `createClientGameState` exposes each player only as id, name,
hand count, current-turn flag and connectivity flag; it is insensitive to
the hand contents of any player other than the requested one (replacing
such a hand by any same-length hand leaves the projection unchanged);
the deck is replaced by its count; `yourHand` is the requested player's
full hand when the id is in the game and empty when it matches no
player. -/
theorem createClientGameState_privacy (s : ServerGameState) (playerId : String) :
    (createClientGameState s playerId).players =
      s.players.map (fun p =>
        { id := p.id, name := p.name, handCount := p.hand.length,
          isCurrentPlayer := p.isCurrentPlayer, isConnected := p.isConnected }) ∧
    (createClientGameState s playerId).deckCount = s.deck.length ∧
    (∀ (k : Nat) (q : ServerPlayer) (newHand : List Card),
        s.players[k]? = some q → q.id ≠ playerId →
        newHand.length = q.hand.length →
        createClientGameState
          { s with players :=
                     s.players.modify (fun p => { p with hand := newHand }) k }
          playerId
          = createClientGameState s playerId) ∧
    (∀ q, s.players.find? (fun p => p.id == playerId) = some q →
        (createClientGameState s playerId).yourHand = q.hand) ∧
    ((∀ p ∈ s.players, p.id ≠ playerId) →
        (createClientGameState s playerId).yourHand = []) := by
  refine ⟨rfl, rfl, ?_, ?_, ?_⟩
  · intro k q newHand hq hid hlen
    have hk : k < s.players.length := by
      by_contra hk
      rw [List.getElem?_eq_none (by omega)] at hq
      exact Option.noConfusion hq
    have hget : s.players.get ⟨k, hk⟩ = q := by
      have := List.getElem?_eq_getElem hk
      rw [this] at hq
      exact (Option.some.injEq _ _).mp hq.symm |>.symm
    have hmod : s.players.modify (fun p => { p with hand := newHand }) k
        = s.players.set k { q with hand := newHand } := by
      rw [List.modify_eq_set_get _ hk, hget]
    rw [hmod]
    have hfind : (s.players.set k { q with hand := newHand }).find?
        (fun p => p.id == playerId) = s.players.find? (fun p => p.id == playerId) := by
      refine find?_set_of_pred_false _ k _ q _ hq ?_ ?_
      · simpa using hid
      · simpa using hid
    simp only [createClientGameState, hfind, List.map_set]
    congr 1
    apply set_of_getElem_eq
    rw [List.getElem?_map, hq]
    simp [hlen]
  · intro q hq
    simp [createClientGameState, hq]
  · intro hall
    have : s.players.find? (fun p => p.id == playerId) = none := by
      rw [List.find?_eq_none]
      intro p hp
      simpa using hall p hp
    simp [createClientGameState, this]

/-- C6 witness: the masking theorem evaluated on a two-player state where
the second player's hand is swapped for a different same-length hand. -/
theorem createClientGameState_privacy_witness :
    (createClientGameState sampleState "a").deckCount = 1 ∧
    createClientGameState sampleStateSwapped "a"
      = createClientGameState sampleState "a" := by
  have h := createClientGameState_privacy sampleState "a"
  refine ⟨h.2.1, ?_⟩
  exact h.2.2.1 1
    { id := "b", name := "B", connectionId := "b",
      hand := [{ id := "h2", value := 7 }], isCurrentPlayer := false,
      isConnected := true }
    [{ id := "x", value := 50 }] (by decide) (by decide) (by decide)

/-! ### C3: engine failures are atomic at the dispatch boundary -/

/-- C3: every Rules Engine failure leaves the stored game state
unmodified at the dispatch boundary (the engine never partially applies
a move); in particular `playCard` with a card id absent from the acting
player's hand fails with the card-not-in-hand error, and `endTurn` with
fewer than the minimum cards played fails with the minimum-cards error,
in both cases keeping the state structurally unchanged. -/
theorem engine_failures_atomic (s : ServerGameState) :
    (∀ (a : GameAction) (e : EngineError), engineStep s a = .error e →
        applyGameAction s a = (s, some e)) ∧
    (∀ (pid cid plid : String) (player : ServerPlayer) (pile : Pile),
        s.players.find? (fun p => p.id == pid) = some player →
        s.piles.find? (fun p => p.id == plid) = some pile →
        pid = s.currentPlayerId →
        (∀ c ∈ player.hand, c.id ≠ cid) →
        playCard s pid cid plid = .error .cardNotInHand ∧
        applyGameAction s (.playCardAction pid cid plid)
          = (s, some .cardNotInHand)) ∧
    (s.cardsPlayed < s.minCardsToPlay →
        endTurn s = .error .mustPlayMinimumCards ∧
        applyGameAction s .endTurnAction = (s, some .mustPlayMinimumCards)) := by
  have hatomic : ∀ (a : GameAction) (e : EngineError), engineStep s a = .error e →
      applyGameAction s a = (s, some e) := by
    intro a e h
    simp [applyGameAction, h]
  refine ⟨hatomic, ?_, ?_⟩
  · intro pid cid plid player pile hfp hfpile hpid hhand
    have hplayers : (saveStateToHistory s).players = s.players := rfl
    have hpiles : (saveStateToHistory s).piles = s.piles := rfl
    have hcur : (saveStateToHistory s).currentPlayerId = s.currentPlayerId := rfl
    have hnone : player.hand.find? (fun c => c.id == cid) = none := by
      rw [List.find?_eq_none]
      intro c hc
      simpa using hhand c hc
    have h1 : playCard s pid cid plid = .error .cardNotInHand := by
      subst hpid
      simp only [playCard, hplayers, hpiles, hcur, hfp, hfpile,
        bne_self_eq_false, Bool.false_eq_true, if_false, hnone]
    exact ⟨h1, hatomic _ _ h1⟩
  · intro hlt
    have h1 : endTurn s = .error .mustPlayMinimumCards := by
      unfold endTurn
      simp [hlt]
    exact ⟨h1, hatomic _ _ h1⟩

/-- C3 witness: on the sample state, playing an absent card id and ending
the turn early both fail with the expected errors and leave the stored
state untouched. -/
theorem engine_failures_atomic_witness :
    playCard sampleState "a" "zz" "ascending-1" = .error .cardNotInHand ∧
    applyGameAction sampleState (.playCardAction "a" "zz" "ascending-1")
      = (sampleState, some .cardNotInHand) ∧
    endTurn sampleState = .error .mustPlayMinimumCards ∧
    applyGameAction sampleState .endTurnAction
      = (sampleState, some .mustPlayMinimumCards) := by
  have h := engine_failures_atomic sampleState
  have h2 := h.2.1 "a" "zz" "ascending-1"
    { id := "a", name := "A", connectionId := "a",
      hand := [{ id := "h1", value := 5 }, { id := "h3", value := 8 }],
      isCurrentPlayer := true, isConnected := true }
    { id := "ascending-1", type := .ascending, startValue := 1,
      currentValue := 1, cards := [] }
    (by decide) (by decide) (by decide) (by decide)
  have h3 := h.2.2 (by decide)
  exact ⟨h2.1, h2.2, h3.1, h3.2⟩

/-! ### C5: win/loss detection timing -/

/-- C5: `checkGameStatus` answers `won` exactly when every hand and the
deck are empty, otherwise `lost` exactly when the current player has no
card playable on any pile, otherwise `playing`; and a successful
`playCard` always carries the input state's status over unchanged (loss
detection happens only on turn advancement). -/
theorem checkGameStatus_timing (s : ServerGameState) :
    (checkGameStatus s = .won ↔ (∀ p ∈ s.players, p.hand = []) ∧ s.deck = []) ∧
    (∀ q, s.players.find? (fun p => p.id == s.currentPlayerId) = some q →
      ¬((∀ p ∈ s.players, p.hand = []) ∧ s.deck = []) →
      ((checkGameStatus s = .lost ↔
          ∀ c ∈ q.hand, ∀ pl ∈ s.piles, canPlayCard c pl = false) ∧
       (checkGameStatus s = .playing ↔
          ∃ c ∈ q.hand, ∃ pl ∈ s.piles, canPlayCard c pl = true))) ∧
    (∀ (pid cid plid : String) (s' : ServerGameState),
        playCard s pid cid plid = .ok s' → s'.status = s.status) := by
  have hcond : ((s.players.map (fun p => p.hand.length)).sum = 0 ∧
      s.deck.length = 0) ↔ ((∀ p ∈ s.players, p.hand = []) ∧ s.deck = []) := by
    rw [List.sum_eq_zero_iff, List.length_eq_zero]
    constructor
    · rintro ⟨h1, h2⟩
      refine ⟨?_, h2⟩
      intro p hp
      have := h1 p.hand.length (List.mem_map_of_mem _ hp)
      exact List.length_eq_zero.mp this
    · rintro ⟨h1, h2⟩
      refine ⟨?_, h2⟩
      intro n hn
      obtain ⟨p, hp, hpn⟩ := List.mem_map.mp hn
      rw [← hpn, h1 p hp]
      rfl
  refine ⟨?_, ?_, ?_⟩
  · constructor
    · intro hwon
      by_contra hne
      unfold checkGameStatus at hwon
      rw [if_neg (fun hc => hne (hcond.mp hc))] at hwon
      revert hwon
      cases s.players.find? (fun p => p.id == s.currentPlayerId) with
      | none => simp
      | some q => by_cases hv : hasValidMoves q s.piles <;> simp [hv]
    · intro hc
      unfold checkGameStatus
      rw [if_pos (hcond.mpr hc)]
  · intro q hq hne
    have hstat : checkGameStatus s
        = if !hasValidMoves q s.piles then .lost else .playing := by
      unfold checkGameStatus
      rw [if_neg (fun hc => hne (hcond.mp hc)), hq]
    have hmoves : hasValidMoves q s.piles = true ↔
        ∃ c ∈ q.hand, ∃ pl ∈ s.piles, canPlayCard c pl = true := by
      unfold hasValidMoves
      simp [List.any_eq_true]
    constructor
    · rw [hstat]
      by_cases hv : hasValidMoves q s.piles
      · simp only [hv, Bool.not_true, Bool.false_eq_true, if_false]
        constructor
        · intro hcontr; exact absurd hcontr (by simp)
        · intro hall
          obtain ⟨c, hc, pl, hpl, hcan⟩ := hmoves.mp hv
          rw [hall c hc pl hpl] at hcan
          exact absurd hcan (by simp)
      · rw [Bool.not_eq_true] at hv
        simp only [hv, Bool.not_false, if_true]
        constructor
        · intro _
          intro c hc pl hpl
          by_contra hcan
          rw [Bool.not_eq_false] at hcan
          exact absurd (hmoves.mpr ⟨c, hc, pl, hpl, hcan⟩) (by simp [hv])
        · intro _; trivial
    · rw [hstat]
      by_cases hv : hasValidMoves q s.piles
      · simp only [hv, Bool.not_true, Bool.false_eq_true, if_false]
        simp only [hmoves.mp hv, iff_true]
      · rw [Bool.not_eq_true] at hv
        simp only [hv, Bool.not_false, if_true]
        constructor
        · intro hcontr; exact absurd hcontr (by simp)
        · intro hex
          exact absurd (hmoves.mpr hex) (by simp [hv])
  · intro pid cid plid s' h
    obtain ⟨player, pile, card, _, _, _, _, _, rfl⟩ := playCard_ok_inv h
    simp only [playCardSuccess]
    split <;> rfl

/-- C5 witness: on the sample state `checkGameStatus` answers `playing`
(the current player can play), and a concrete successful `playCard` into
that state leaves the status field untouched. -/
theorem checkGameStatus_timing_witness :
    checkGameStatus sampleState = .playing ∧
    samplePlayed.status = sampleState.status := by
  have h := checkGameStatus_timing sampleState
  have h2 := (h.2.1
    { id := "a", name := "A", connectionId := "a",
      hand := [{ id := "h1", value := 5 }, { id := "h3", value := 8 }],
      isCurrentPlayer := true, isConnected := true }
    (by decide) (by decide)).2
  refine ⟨h2.mpr ?_, ?_⟩
  · refine ⟨{ id := "h1", value := 5 }, by decide,
      { id := "ascending-1", type := .ascending, startValue := 1,
        currentValue := 1, cards := [] }, ?_, by decide⟩
    decide
  · exact h.2.2 "a" "h1" "ascending-1" samplePlayed (by rfl)

/-! ### C9: undo as the inverse of a played move -/

/-- C9: `undoLastMove` fails with the nothing-to-undo error exactly when
undo is unavailable or the history is empty; after any successful
`playCard` from state `s` it succeeds and restores piles, hands and deck
(indeed all snapshot fields) exactly to their values in `s`, pops the
latest snapshot off the history stack, and sets undo-availability to
whether history remains. -/
theorem undoLastMove_restores (s : ServerGameState) :
    (undoLastMove s = .error .cannotUndo ↔
        s.canUndo = false ∨ s.moveHistory = []) ∧
    (∀ (pid cid plid : String) (s' : ServerGameState),
        playCard s pid cid plid = .ok s' →
        ∃ u, undoLastMove s' = .ok u ∧
          u.toCore = s.toCore ∧
          u.piles = s.piles ∧ u.deck = s.deck ∧
          u.players.map (fun p => p.hand) = s.players.map (fun p => p.hand) ∧
          u.moveHistory = s'.moveHistory.dropLast ∧
          (u.canUndo = true ↔ u.moveHistory ≠ [])) := by
  constructor
  · unfold undoLastMove
    constructor
    · intro h
      by_cases hcu : s.canUndo
      · by_cases hh : s.moveHistory = []
        · exact Or.inr hh
        · rw [if_neg (by simp [hcu, hh])] at h
          cases hlast : s.moveHistory.getLast? with
          | none =>
            exact Or.inr (by simpa using List.getLast?_eq_none_iff.mp hlast)
          | some prev =>
            rw [hlast] at h
            simp at h
      · exact Or.inl (by simpa using hcu)
    · intro h
      rw [if_pos]
      rcases h with h | h
      · simp [h]
      · simp [h]
  · intro pid cid plid s' h
    obtain ⟨player, pile, card, _, _, _, _, _, rfl⟩ := playCard_ok_inv h
    obtain ⟨hcu, hmh, _, _, _, _, _⟩ :=
      playCardSuccess_fields s pid cid plid card
    obtain ⟨hlast, hne, _⟩ := saveStateToHistory_facts s
    refine ⟨(s.toCore).toState
      ((playCardSuccess s pid cid plid card).moveHistory.dropLast)
      (decide ((playCardSuccess s pid cid plid card).moveHistory.dropLast.length > 0)),
      ?_, ?_, rfl, rfl, rfl, rfl, ?_⟩
    · unfold undoLastMove
      rw [if_neg (by simp [hcu, hmh, hne]), hmh, hlast]
    · rfl
    · simp only [GameCore.toState, decide_eq_true_eq]
      constructor
      · intro hpos
        exact List.ne_nil_of_length_pos hpos
      · intro hne2
        exact List.length_pos_of_ne_nil hne2

/-- C9 witness: undo on the fresh sample state (no history) fails, and
the theorem applied to the concrete played move restores the sample
state's snapshot fields exactly. -/
theorem undoLastMove_restores_witness :
    undoLastMove sampleState = .error .cannotUndo ∧
    (∃ u, undoLastMove samplePlayed = .ok u ∧
      u.toCore = sampleState.toCore ∧
      u.piles = sampleState.piles ∧ u.deck = sampleState.deck ∧
      u.players.map (fun p => p.hand)
        = sampleState.players.map (fun p => p.hand) ∧
      u.moveHistory = samplePlayed.moveHistory.dropLast ∧
      (u.canUndo = true ↔ u.moveHistory ≠ [])) := by
  have h := undoLastMove_restores sampleState
  exact ⟨h.1.mpr (Or.inl (by decide)),
    h.2 "a" "h1" "ascending-1" samplePlayed (by rfl)⟩

/-! ### C10: connection drops keep active games resident -/

/-- C10: on a connection drop without an explicit leave, when a game is
in progress, the player's roster entry is kept (only the live connection
is removed), the player is marked disconnected in the game state, the
others are notified, and the room is not evicted from memory — in
particular a room left with zero live connections but an active game
stays resident. -/
theorem disconnection_keeps_active_game (room : GameRoom) (playerId : String)
    (g : ServerGameState) (hg : room.gameState = some g)
    (hplaying : g.status = .playing) (gp : ServerPlayer)
    (hgp : g.players.find? (fun p => p.id == playerId) = some gp) :
    ∃ room', (handlePlayerDisconnection room playerId false).room = some room' ∧
      room'.players = room.players ∧
      room'.connections = room.connections.filter (fun c => c != playerId) ∧
      (∃ g', room'.gameState = some g' ∧
        g'.players.length = g.players.length ∧
        ∃ j, ∃ hj : j < g.players.length,
          (g.players.get ⟨j, hj⟩).id = playerId ∧
          (∀ k (hk1 : k < g'.players.length) (hk2 : k < g.players.length),
            g'.players.get ⟨k, hk1⟩
              = if k = j
                then { g.players.get ⟨k, hk2⟩ with isConnected := false }
                else g.players.get ⟨k, hk2⟩)) ∧
      (handlePlayerDisconnection room playerId false).notices
        = [RoomNotice.playerDisconnected playerId
            (match room.players.find? (fun p => p.id == playerId) with
             | some p => p.name
             | none => "Unknown")] := by
  obtain ⟨j, hj, hidx, hget⟩ := find?_findIdx _ _ _ hgp
  have hmark : ∀ (k : Nat) (hk1 : k < (markDisconnected g playerId).players.length)
      (hk2 : k < g.players.length),
      (markDisconnected g playerId).players.get ⟨k, hk1⟩
        = if k = j
          then { g.players.get ⟨k, hk2⟩ with isConnected := false }
          else g.players.get ⟨k, hk2⟩ := by
    intro k hk1 hk2
    have heq : (markDisconnected g playerId).players
        = List.modify (fun p => { p with isConnected := false }) j g.players := by
      simp only [markDisconnected]
      exact updateFirst_eq_modify (fun p => p.id == playerId)
        (fun p => { p with isConnected := false }) g.players j hidx
    have hk1' : k < (List.modify
        (fun p => { p with isConnected := false }) j g.players).length := by
      rw [List.length_modify]
      exact hk2
    rw [List.get_eq_getElem, List.getElem_of_eq heq]
    apply Option.some.inj
    rw [← List.getElem?_eq_getElem hk1', List.getElem?_modify,
      List.getElem?_eq_getElem hk2]
    by_cases hkj : k = j
    · subst hkj
      simp [List.get_eq_getElem]
    · have hne : ¬(j = k) := fun h => hkj h.symm
      simp [hne, hkj, List.get_eq_getElem]
  have hlen2 : (markDisconnected g playerId).players.length
      = g.players.length :=
    updateFirst_length ..
  have hstatus : (markDisconnected g playerId).status = g.status := rfl
  refine ⟨{ room with
      connections := room.connections.filter (fun c => c != playerId),
      gameState := some (markDisconnected g playerId) }, ?_, rfl, rfl,
    ⟨markDisconnected g playerId, rfl, hlen2, j, hj,
      by rw [hget]; simpa using List.find?_some hgp, hmark⟩,
    ?_⟩
  · simp only [handlePlayerDisconnection, hg, hgp, Bool.false_eq_true, if_false]
    have : ((markDisconnected g playerId).status == GameStatus.waiting) = false := by
      rw [hstatus, hplaying]
      rfl
    rw [this, Bool.and_false]
    rfl
  · simp only [handlePlayerDisconnection, hg, hgp]

/-- C10 witness: dropping player `b`'s connection from the sample room
(game in progress) keeps the roster, removes only the connection, marks
`b` disconnected, notifies the room, and leaves the room in memory. -/
theorem disconnection_keeps_active_game_witness :
    ∃ room', (handlePlayerDisconnection sampleRoom "b" false).room = some room' ∧
      room'.players = sampleRoom.players ∧
      room'.connections
        = sampleRoom.connections.filter (fun c => c != "b") ∧
      (∃ g', room'.gameState = some g' ∧
        g'.players.length = sampleState.players.length ∧
        ∃ j, ∃ hj : j < sampleState.players.length,
          (sampleState.players.get ⟨j, hj⟩).id = "b" ∧
          (∀ k (hk1 : k < g'.players.length)
            (hk2 : k < sampleState.players.length),
            g'.players.get ⟨k, hk1⟩
              = if k = j
                then { sampleState.players.get ⟨k, hk2⟩ with
                        isConnected := false }
                else sampleState.players.get ⟨k, hk2⟩)) ∧
      (handlePlayerDisconnection sampleRoom "b" false).notices
        = [RoomNotice.playerDisconnected "b"
            (match sampleRoom.players.find? (fun p => p.id == "b") with
             | some p => p.name
             | none => "Unknown")] :=
  disconnection_keeps_active_game sampleRoom "b" sampleState rfl rfl
    { id := "b", name := "B", connectionId := "b",
      hand := [{ id := "h2", value := 7 }], isCurrentPlayer := false,
      isConnected := true }
    (by decide)

/-! ### C4: turn advancement -/

/-- C4: with the minimum met, `endTurn` succeeds; when the deck is
non-empty the current player draws from the deck's back until reaching
the original target hand size or exhausting the deck and the hand is
re-sorted ascending; the current-turn flag advances circularly to the
next player in seating order; the cards-played counter resets; undo
availability is cleared; and the status field is the recomputed
game-status check of the resulting state. -/
theorem endTurn_advances (s : ServerGameState) (i : Nat) (cur : ServerPlayer)
    (hmin : s.minCardsToPlay ≤ s.cardsPlayed)
    (hidx : s.players.findIdx? (fun p => p.id == s.currentPlayerId) = some i)
    (hcur : s.players[i]? = some cur)
    (hde : s.isDeckEmpty = true → s.deck = []) :
    ∃ s', endTurn s = .ok s' ∧
      s'.cardsPlayed = 0 ∧
      s'.canUndo = false ∧
      s'.status = checkGameStatus s' ∧
      s'.moveHistory = s.moveHistory ∧
      s'.players.map (fun p => p.id) = s.players.map (fun p => p.id) ∧
      (∃ np, s'.players[(i + 1) % s.players.length]? = some np ∧
        s'.currentPlayerId = np.id ∧ np.isCurrentPlayer = true ∧
        ((i + 1) % s.players.length ≠ i →
          ∀ hi2 : i < s'.players.length,
            (s'.players.get ⟨i, hi2⟩).isCurrentPlayer = false)) ∧
      (s.deck = [] →
        s'.deck = [] ∧
        s'.players.map (fun p => p.hand) = s.players.map (fun p => p.hand)) ∧
      (s.deck ≠ [] →
        ∃ m newHand, m ≤ s.deck.length ∧
          s'.deck = s.deck.take m ∧
          s'.players.map (fun p => p.hand)
            = (s.players.map (fun p => p.hand)).set i newHand ∧
          newHand.Pairwise (fun a b => a.value ≤ b.value) ∧
          newHand.Perm (cur.hand ++ (s.deck.drop m).reverse) ∧
          newHand.length
            = max cur.hand.length
                (min (getStartingHandSize s.players.length)
                  (cur.hand.length + s.deck.length))) := by
  have hilen : i < s.players.length := by
    obtain ⟨h, -, -⟩ := List.findIdx?_eq_some_iff_getElem.mp hidx
    exact h
  have hn : 0 < s.players.length := by omega
  by_cases hdeck : s.deck = []
  · -- deck empty: the draw block is skipped
    have hcond : (!s.isDeckEmpty && decide (s.deck.length > 0)) = false := by
      simp [hdeck]
    have hnextlt : (i + 1) % s.players.length < s.players.length :=
      Nat.mod_lt _ hn
    have hp1len : (s.players.modify
        (fun p => { p with isCurrentPlayer := false }) i).length
        = s.players.length := List.length_modify ..
    have hnextlt1 : (i + 1) % s.players.length
        < (s.players.modify
            (fun p => { p with isCurrentPlayer := false }) i).length := by
      omega
    have hnp : ((s.players.modify (fun p => { p with isCurrentPlayer := false })
          i).modify (fun p => { p with isCurrentPlayer := true })
          ((i + 1) % s.players.length))[(i + 1) % s.players.length]?
        = some { (s.players.modify
            (fun p => { p with isCurrentPlayer := false }) i).get
              ⟨(i + 1) % s.players.length, hnextlt1⟩ with
            isCurrentPlayer := true } := by
      rw [List.getElem?_modify, List.getElem?_eq_getElem hnextlt1]
      simp [List.get_eq_getElem]
    have hrun : endTurn s = .ok
        { s with
          players :=
            ((s.players.modify (fun p => { p with isCurrentPlayer := false })
              i).modify (fun p => { p with isCurrentPlayer := true })
              ((i + 1) % s.players.length)),
          currentPlayerId :=
            ({ (s.players.modify (fun p => { p with isCurrentPlayer := false })
                i).get ⟨(i + 1) % s.players.length, hnextlt1⟩ with
                isCurrentPlayer := true } : ServerPlayer).id,
          cardsPlayed := 0,
          status :=
            checkGameStatus
              { s with
                players :=
                  ((s.players.modify
                    (fun p => { p with isCurrentPlayer := false })
                    i).modify (fun p => { p with isCurrentPlayer := true })
                    ((i + 1) % s.players.length)),
                currentPlayerId :=
                  ({ (s.players.modify
                      (fun p => { p with isCurrentPlayer := false })
                      i).get ⟨(i + 1) % s.players.length, hnextlt1⟩ with
                      isCurrentPlayer := true } : ServerPlayer).id,
                cardsPlayed := 0 },
          canUndo := false } := by
      simp only [endTurn, hidx, hcur, hcond, Bool.false_eq_true, if_false]
      rw [if_neg (by omega), hnp]
    refine ⟨_, hrun, rfl, rfl, rfl, rfl, ?_,
      ⟨{ (s.players.modify (fun p => { p with isCurrentPlayer := false })
          i).get ⟨(i + 1) % s.players.length, hnextlt1⟩ with
          isCurrentPlayer := true }, ?_, rfl, rfl, ?_⟩, ?_, ?_⟩
    · show ((s.players.modify (fun p => { p with isCurrentPlayer := false })
          i).modify (fun p => { p with isCurrentPlayer := true })
          ((i + 1) % s.players.length)).map (fun p => p.id)
          = s.players.map (fun p => p.id)
      rw [map_modify_of_fixed (fun p : ServerPlayer => p.id)
          (fun p : ServerPlayer => { p with isCurrentPlayer := true })
          (fun a => rfl),
        map_modify_of_fixed (fun p : ServerPlayer => p.id)
          (fun p : ServerPlayer => { p with isCurrentPlayer := false })
          (fun a => rfl)]
    · exact hnp
    · intro hne hi2
      have hp2i : ((s.players.modify
            (fun p => { p with isCurrentPlayer := false }) i).modify
            (fun p => { p with isCurrentPlayer := true })
            ((i + 1) % s.players.length))[i]?
          = some { cur with isCurrentPlayer := false } := by
        rw [List.getElem?_modify, List.getElem?_modify, hcur]
        simp [hne]
      have hi2' : i < ((s.players.modify
          (fun p => { p with isCurrentPlayer := false }) i).modify
          (fun p => { p with isCurrentPlayer := true })
          ((i + 1) % s.players.length)).length := hi2
      rw [List.getElem?_eq_getElem hi2'] at hp2i
      have heq := Option.some.inj hp2i
      rw [List.get_eq_getElem]
      exact congrArg (fun q => q.isCurrentPlayer) heq
    · intro _
      refine ⟨hdeck, ?_⟩
      show ((s.players.modify (fun p => { p with isCurrentPlayer := false })
          i).modify (fun p => { p with isCurrentPlayer := true })
          ((i + 1) % s.players.length)).map (fun p => p.hand)
          = s.players.map (fun p => p.hand)
      rw [map_modify_of_fixed (fun p : ServerPlayer => p.hand)
          (fun p : ServerPlayer => { p with isCurrentPlayer := true })
          (fun a => rfl),
        map_modify_of_fixed (fun p : ServerPlayer => p.hand)
          (fun p : ServerPlayer => { p with isCurrentPlayer := false })
          (fun a => rfl)]
    · intro hne
      exact absurd hdeck hne
  · -- deck non-empty: the current player draws
    have hisde : s.isDeckEmpty = false := by
      cases h : s.isDeckEmpty
      · rfl
      · exact absurd (hde h) hdeck
    have hcond : (!s.isDeckEmpty && decide (s.deck.length > 0)) = true := by
      simp [hisde, List.length_pos_of_ne_nil hdeck]
    have hsetlen : (s.players.set i { cur with hand := sortHand (drawCards cur.hand s.deck (getStartingHandSize s.players.length)).1 }).length = s.players.length := List.length_set ..
    have hp1lenB : ((s.players.set i { cur with hand := sortHand (drawCards cur.hand s.deck (getStartingHandSize s.players.length)).1 }).modify (fun p => { p with isCurrentPlayer := false }) i).length = (s.players.set i { cur with hand := sortHand (drawCards cur.hand s.deck (getStartingHandSize s.players.length)).1 }).length := List.length_modify ..
    have hposB : 0 < (s.players.set i { cur with hand := sortHand (drawCards cur.hand s.deck (getStartingHandSize s.players.length)).1 }).length := by
      rw [hsetlen]
      omega
    have hnextlt1B : ((i + 1) % (s.players.set i { cur with hand := sortHand (drawCards cur.hand s.deck (getStartingHandSize s.players.length)).1 }).length) < ((s.players.set i { cur with hand := sortHand (drawCards cur.hand s.deck (getStartingHandSize s.players.length)).1 }).modify (fun p => { p with isCurrentPlayer := false }) i).length := by
      rw [hp1lenB]
      exact Nat.mod_lt _ hposB
    have hmod_eq : ((i + 1) % (s.players.set i { cur with hand := sortHand (drawCards cur.hand s.deck (getStartingHandSize s.players.length)).1 }).length) = (i + 1) % s.players.length := by
      rw [hsetlen]
    have hnpB : (((s.players.set i { cur with hand := sortHand (drawCards cur.hand s.deck (getStartingHandSize s.players.length)).1 }).modify (fun p => { p with isCurrentPlayer := false }) i).modify (fun p => { p with isCurrentPlayer := true }) ((i + 1) % (s.players.set i { cur with hand := sortHand (drawCards cur.hand s.deck (getStartingHandSize s.players.length)).1 }).length))[((i + 1) % (s.players.set i { cur with hand := sortHand (drawCards cur.hand s.deck (getStartingHandSize s.players.length)).1 }).length)]?
        = some ({ ((s.players.set i { cur with hand := sortHand (drawCards cur.hand s.deck (getStartingHandSize s.players.length)).1 }).modify (fun p => { p with isCurrentPlayer := false }) i).get ⟨((i + 1) % (s.players.set i { cur with hand := sortHand (drawCards cur.hand s.deck (getStartingHandSize s.players.length)).1 }).length), hnextlt1B⟩ with isCurrentPlayer := true } : ServerPlayer) := by
      rw [List.getElem?_modify, List.getElem?_eq_getElem hnextlt1B]
      simp [List.get_eq_getElem]
    have hrun : endTurn s = .ok
        { s with
          currentPlayerId := ({ ((s.players.set i { cur with hand := sortHand (drawCards cur.hand s.deck (getStartingHandSize s.players.length)).1 }).modify (fun p => { p with isCurrentPlayer := false }) i).get ⟨((i + 1) % (s.players.set i { cur with hand := sortHand (drawCards cur.hand s.deck (getStartingHandSize s.players.length)).1 }).length), hnextlt1B⟩ with isCurrentPlayer := true } : ServerPlayer).id,
          cardsPlayed := 0,
          deck := (drawCards cur.hand s.deck (getStartingHandSize s.players.length)).2,
          status :=
            checkGameStatus
              { s with
                currentPlayerId := ({ ((s.players.set i { cur with hand := sortHand (drawCards cur.hand s.deck (getStartingHandSize s.players.length)).1 }).modify (fun p => { p with isCurrentPlayer := false }) i).get ⟨((i + 1) % (s.players.set i { cur with hand := sortHand (drawCards cur.hand s.deck (getStartingHandSize s.players.length)).1 }).length), hnextlt1B⟩ with isCurrentPlayer := true } : ServerPlayer).id,
                cardsPlayed := 0,
                deck := (drawCards cur.hand s.deck (getStartingHandSize s.players.length)).2,
                players := (((s.players.set i { cur with hand := sortHand (drawCards cur.hand s.deck (getStartingHandSize s.players.length)).1 }).modify (fun p => { p with isCurrentPlayer := false }) i).modify (fun p => { p with isCurrentPlayer := true }) ((i + 1) % (s.players.set i { cur with hand := sortHand (drawCards cur.hand s.deck (getStartingHandSize s.players.length)).1 }).length)) },
          canUndo := false,
          players := (((s.players.set i { cur with hand := sortHand (drawCards cur.hand s.deck (getStartingHandSize s.players.length)).1 }).modify (fun p => { p with isCurrentPlayer := false }) i).modify (fun p => { p with isCurrentPlayer := true }) ((i + 1) % (s.players.set i { cur with hand := sortHand (drawCards cur.hand s.deck (getStartingHandSize s.players.length)).1 }).length)) } := by
      simp only [endTurn, hidx, hcur, hcond, if_true]
      rw [if_neg (by omega), hnpB]
    obtain ⟨m, hm, hd2, hd1, hdlen⟩ :=
      drawCards_spec (getStartingHandSize s.players.length) cur.hand s.deck
    refine ⟨_, hrun, rfl, rfl, rfl, rfl, ?_,
      ⟨{ ((s.players.set i { cur with hand := sortHand (drawCards cur.hand s.deck (getStartingHandSize s.players.length)).1 }).modify (fun p => { p with isCurrentPlayer := false }) i).get ⟨((i + 1) % (s.players.set i { cur with hand := sortHand (drawCards cur.hand s.deck (getStartingHandSize s.players.length)).1 }).length), hnextlt1B⟩ with isCurrentPlayer := true }, ?_, rfl, rfl, ?_⟩, ?_, ?_⟩
    · show (((s.players.set i { cur with hand := sortHand (drawCards cur.hand s.deck (getStartingHandSize s.players.length)).1 }).modify (fun p => { p with isCurrentPlayer := false }) i).modify (fun p => { p with isCurrentPlayer := true }) ((i + 1) % (s.players.set i { cur with hand := sortHand (drawCards cur.hand s.deck (getStartingHandSize s.players.length)).1 }).length)).map (fun p => p.id) = s.players.map (fun p => p.id)
      rw [map_modify_of_fixed (fun p : ServerPlayer => p.id)
          (fun p : ServerPlayer => { p with isCurrentPlayer := true })
          (fun a => rfl),
        map_modify_of_fixed (fun p : ServerPlayer => p.id)
          (fun p : ServerPlayer => { p with isCurrentPlayer := false })
          (fun a => rfl)]
      apply map_set_eq_of_getElem
      intro a ha
      rw [hcur] at ha
      obtain rfl : cur = a := by simpa using ha
      rfl
    · show (((s.players.set i { cur with hand := sortHand (drawCards cur.hand s.deck (getStartingHandSize s.players.length)).1 }).modify (fun p => { p with isCurrentPlayer := false }) i).modify (fun p => { p with isCurrentPlayer := true }) ((i + 1) % (s.players.set i { cur with hand := sortHand (drawCards cur.hand s.deck (getStartingHandSize s.players.length)).1 }).length))[(i + 1) % s.players.length]? = some ({ ((s.players.set i { cur with hand := sortHand (drawCards cur.hand s.deck (getStartingHandSize s.players.length)).1 }).modify (fun p => { p with isCurrentPlayer := false }) i).get ⟨((i + 1) % (s.players.set i { cur with hand := sortHand (drawCards cur.hand s.deck (getStartingHandSize s.players.length)).1 }).length), hnextlt1B⟩ with isCurrentPlayer := true } : ServerPlayer)
      rw [← hmod_eq]
      exact hnpB
    · intro hne hi2
      have hneB : ¬ ((i + 1) % (s.players.set i { cur with hand := sortHand (drawCards cur.hand s.deck (getStartingHandSize s.players.length)).1 }).length) = i := by
        rw [hmod_eq]
        exact hne
      have hp2i : (((s.players.set i { cur with hand := sortHand (drawCards cur.hand s.deck (getStartingHandSize s.players.length)).1 }).modify (fun p => { p with isCurrentPlayer := false }) i).modify (fun p => { p with isCurrentPlayer := true }) ((i + 1) % (s.players.set i { cur with hand := sortHand (drawCards cur.hand s.deck (getStartingHandSize s.players.length)).1 }).length))[i]? = some { cur with hand := sortHand (drawCards cur.hand s.deck (getStartingHandSize s.players.length)).1, isCurrentPlayer := false } := by
        rw [List.getElem?_modify, List.getElem?_modify,
          List.getElem?_set_self (by omega)]
        simp [hneB, hne]
      have hi2' : i < (((s.players.set i { cur with hand := sortHand (drawCards cur.hand s.deck (getStartingHandSize s.players.length)).1 }).modify (fun p => { p with isCurrentPlayer := false }) i).modify (fun p => { p with isCurrentPlayer := true }) ((i + 1) % (s.players.set i { cur with hand := sortHand (drawCards cur.hand s.deck (getStartingHandSize s.players.length)).1 }).length)).length := hi2
      rw [List.getElem?_eq_getElem hi2'] at hp2i
      have heq := Option.some.inj hp2i
      rw [List.get_eq_getElem]
      exact congrArg (fun q => q.isCurrentPlayer) heq
    · intro h
      exact absurd h hdeck
    · intro _
      refine ⟨m, sortHand (drawCards cur.hand s.deck (getStartingHandSize s.players.length)).1, hm, ?_, ?_, sortHand_sorted _, ?_, ?_⟩
      · exact hd2
      · show (((s.players.set i { cur with hand := sortHand (drawCards cur.hand s.deck (getStartingHandSize s.players.length)).1 }).modify (fun p => { p with isCurrentPlayer := false }) i).modify (fun p => { p with isCurrentPlayer := true }) ((i + 1) % (s.players.set i { cur with hand := sortHand (drawCards cur.hand s.deck (getStartingHandSize s.players.length)).1 }).length)).map (fun p => p.hand)
            = (s.players.map (fun p => p.hand)).set i (sortHand (drawCards cur.hand s.deck (getStartingHandSize s.players.length)).1)
        rw [map_modify_of_fixed (fun p : ServerPlayer => p.hand)
            (fun p : ServerPlayer => { p with isCurrentPlayer := true })
            (fun a => rfl),
          map_modify_of_fixed (fun p : ServerPlayer => p.hand)
            (fun p : ServerPlayer => { p with isCurrentPlayer := false })
            (fun a => rfl)]
        rw [List.map_set]
      · rw [← hd1]
        exact sortHand_perm
          (drawCards cur.hand s.deck (getStartingHandSize s.players.length)).1
      · rw [sortHand_length, hdlen]

/-- C4 witness: `endTurn` on the sample state with the minimum met
draws for the current player, advances the turn to the second player,
resets the counter, clears undo and recomputes the status. -/
theorem endTurn_advances_witness :
    ∃ s', endTurn sampleEndState = .ok s' ∧
      s'.cardsPlayed = 0 ∧
      s'.canUndo = false ∧
      s'.status = checkGameStatus s' ∧
      s'.moveHistory = sampleEndState.moveHistory ∧
      s'.players.map (fun p => p.id)
        = sampleEndState.players.map (fun p => p.id) ∧
      (∃ np, s'.players[(0 + 1) % sampleEndState.players.length]? = some np ∧
        s'.currentPlayerId = np.id ∧ np.isCurrentPlayer = true ∧
        ((0 + 1) % sampleEndState.players.length ≠ 0 →
          ∀ hi2 : 0 < s'.players.length,
            (s'.players.get ⟨0, hi2⟩).isCurrentPlayer = false)) ∧
      (sampleEndState.deck = [] →
        s'.deck = [] ∧
        s'.players.map (fun p => p.hand)
          = sampleEndState.players.map (fun p => p.hand)) ∧
      (sampleEndState.deck ≠ [] →
        ∃ m newHand, m ≤ sampleEndState.deck.length ∧
          s'.deck = sampleEndState.deck.take m ∧
          s'.players.map (fun p => p.hand)
            = (sampleEndState.players.map (fun p => p.hand)).set 0 newHand ∧
          newHand.Pairwise (fun a b => a.value ≤ b.value) ∧
          newHand.Perm
            ([{ id := "h1", value := 5 }, { id := "h3", value := 8 }]
              ++ (sampleEndState.deck.drop m).reverse) ∧
          newHand.length
            = max 2
                (min (getStartingHandSize sampleEndState.players.length)
                  (2 + sampleEndState.deck.length))) :=
  endTurn_advances sampleEndState 0
    { id := "a", name := "A", connectionId := "a",
      hand := [{ id := "h1", value := 5 }, { id := "h3", value := 8 }],
      isCurrentPlayer := true, isConnected := true }
    (by decide) (by decide) (by decide) (by decide)

/-! ### C7: game initialization -/

/-- C7: `initializeGame` rejects player counts outside 1..5 with the
invalid-player-count error; on a 98-card deck it deals every player a
sorted hand of the size fixed by the player count (8/7/6), builds the 2
ascending piles at 1 and 2 descending piles at 100, marks exactly one
player's current-turn flag and starts in status `playing`; a 2-player
game gets hands of 7 and 7 with 84 cards left in the deck. -/
theorem initializeGame_spec (roomId : String)
    (pd : List (String × String × String)) (deck : List Card) :
    (pd.length < 1 ∨ 5 < pd.length →
      initializeGame roomId pd deck = .error .invalidNumberOfPlayers) ∧
    (1 ≤ pd.length → pd.length ≤ 5 → deck.length = 98 →
      ∃ s, initializeGame roomId pd deck = .ok s ∧
        s.status = .playing ∧
        s.piles = createInitialPiles ∧
        s.piles.map (fun p => (p.type, p.currentValue))
          = [(.ascending, 1), (.ascending, 1),
             (.descending, 100), (.descending, 100)] ∧
        s.minCardsToPlay = 2 ∧ s.cardsPlayed = 0 ∧
        s.isDeckEmpty = false ∧ s.moveHistory = [] ∧ s.canUndo = false ∧
        s.players.length = pd.length ∧
        s.deck.length = 98 - pd.length * getStartingHandSize pd.length ∧
        (∀ p ∈ s.players,
          p.hand.length = getStartingHandSize pd.length ∧
          p.hand.Pairwise (fun a b => a.value ≤ b.value)) ∧
        (s.players.filter (fun p => p.isCurrentPlayer)).length = 1 ∧
        (pd.length = 2 →
          s.players.map (fun p => p.hand.length) = [7, 7] ∧
          s.deck.length = 84)) := by
  constructor
  · intro hcase
    unfold initializeGame
    rw [if_pos (by rcases hcase with h | h <;> simp [h])]
  · intro h1 h5 hdlen
    have hbound : pd.length * getStartingHandSize pd.length ≤ 98 := by
      unfold getStartingHandSize
      split_ifs <;> omega
    obtain ⟨dl1, dl2, dlids, dl4⟩ :=
      dealPlayers_spec pd deck (getStartingHandSize pd.length)
        (by omega)
    have hne : (dealPlayers (getStartingHandSize pd.length) pd deck).1 ≠ [] := by
      intro hcontr
      rw [hcontr] at dl1
      simp at dl1
      omega
    obtain ⟨hjlt, hstrict, hall⟩ :=
      determineStartingPlayer_argmax (dealPlayers (getStartingHandSize pd.length) pd deck).1 createInitialPiles hne
    have hsp : (dealPlayers (getStartingHandSize pd.length) pd deck).1[determineStartingPlayer (dealPlayers (getStartingHandSize pd.length) pd deck).1 createInitialPiles]?
        = some ((dealPlayers (getStartingHandSize pd.length) pd deck).1.get ⟨determineStartingPlayer (dealPlayers (getStartingHandSize pd.length) pd deck).1 createInitialPiles, hjlt⟩) := by
      rw [List.getElem?_eq_getElem hjlt]
      rfl
    have hrun : initializeGame roomId pd deck = .ok
        { id := roomId, status := .playing,
          currentPlayerId := ((dealPlayers (getStartingHandSize pd.length) pd deck).1.get ⟨determineStartingPlayer (dealPlayers (getStartingHandSize pd.length) pd deck).1 createInitialPiles, hjlt⟩).id,
          piles := createInitialPiles, deck := (dealPlayers (getStartingHandSize pd.length) pd deck).2,
          cardsPlayed := 0, minCardsToPlay := 2, isDeckEmpty := false,
          moveHistory := [], canUndo := false, maxPlayers := 5,
          players := (dealPlayers (getStartingHandSize pd.length) pd deck).1.set (determineStartingPlayer (dealPlayers (getStartingHandSize pd.length) pd deck).1 createInitialPiles)
            { (dealPlayers (getStartingHandSize pd.length) pd deck).1.get ⟨determineStartingPlayer (dealPlayers (getStartingHandSize pd.length) pd deck).1 createInitialPiles, hjlt⟩ with isCurrentPlayer := true } } := by
      unfold initializeGame
      rw [if_neg (by simp only [Bool.or_eq_true, decide_eq_true_eq]; omega)]
      simp only [hsp]
    refine ⟨_, hrun, rfl, rfl, by rfl, rfl, rfl, rfl, rfl, rfl, ?_, ?_, ?_, ?_, ?_⟩
    · show ((dealPlayers (getStartingHandSize pd.length) pd deck).1.set (determineStartingPlayer (dealPlayers (getStartingHandSize pd.length) pd deck).1 createInitialPiles)
          { (dealPlayers (getStartingHandSize pd.length) pd deck).1.get ⟨determineStartingPlayer (dealPlayers (getStartingHandSize pd.length) pd deck).1 createInitialPiles, hjlt⟩ with isCurrentPlayer := true }).length = pd.length
      rw [List.length_set, dl1]
    · show (dealPlayers (getStartingHandSize pd.length) pd deck).2.length = 98 - pd.length * getStartingHandSize pd.length
      rw [dl2, List.length_take, hdlen]
      omega
    · intro p hp
      simp only at hp
      rcases List.mem_or_eq_of_mem_set hp with hmem | rfl
      · obtain ⟨-, hl, hs, -⟩ := dl4 p hmem
        exact ⟨hl, hs⟩
      · obtain ⟨-, hl, hs, -⟩ := dl4 ((dealPlayers (getStartingHandSize pd.length) pd deck).1.get ⟨determineStartingPlayer (dealPlayers (getStartingHandSize pd.length) pd deck).1 createInitialPiles, hjlt⟩)
          (List.get_mem (dealPlayers (getStartingHandSize pd.length) pd deck).1 (determineStartingPlayer (dealPlayers (getStartingHandSize pd.length) pd deck).1 createInitialPiles) hjlt)
        exact ⟨hl, hs⟩
    · show (((dealPlayers (getStartingHandSize pd.length) pd deck).1.set (determineStartingPlayer (dealPlayers (getStartingHandSize pd.length) pd deck).1 createInitialPiles)
          { (dealPlayers (getStartingHandSize pd.length) pd deck).1.get ⟨determineStartingPlayer (dealPlayers (getStartingHandSize pd.length) pd deck).1 createInitialPiles, hjlt⟩ with isCurrentPlayer := true }).filter
            (fun p => p.isCurrentPlayer)).length = 1
      apply filter_length_set_true
      · intro a ha
        exact (dl4 a ha).1
      · rfl
      · exact hjlt
    · intro h2
      have hhs : getStartingHandSize pd.length = 7 := by
        rw [h2]
        rfl
      constructor
      · have hlen2 : ((dealPlayers (getStartingHandSize pd.length) pd deck).1.set (determineStartingPlayer (dealPlayers (getStartingHandSize pd.length) pd deck).1 createInitialPiles)
            { (dealPlayers (getStartingHandSize pd.length) pd deck).1.get ⟨determineStartingPlayer (dealPlayers (getStartingHandSize pd.length) pd deck).1 createInitialPiles, hjlt⟩ with isCurrentPlayer := true }).length = 2 := by
          rw [List.length_set, dl1, h2]
        have hmem7 : ∀ x ∈ ((dealPlayers (getStartingHandSize pd.length) pd deck).1.set (determineStartingPlayer (dealPlayers (getStartingHandSize pd.length) pd deck).1 createInitialPiles)
            { (dealPlayers (getStartingHandSize pd.length) pd deck).1.get ⟨determineStartingPlayer (dealPlayers (getStartingHandSize pd.length) pd deck).1 createInitialPiles, hjlt⟩ with isCurrentPlayer := true }).map (fun p => p.hand.length),
            x = 7 := by
          intro x hx
          obtain ⟨p, hp, rfl⟩ := List.mem_map.mp hx
          rcases List.mem_or_eq_of_mem_set hp with hmem | rfl
          · rw [(dl4 p hmem).2.1, hhs]
          · show ((dealPlayers (getStartingHandSize pd.length) pd deck).1.get ⟨determineStartingPlayer (dealPlayers (getStartingHandSize pd.length) pd deck).1 createInitialPiles, hjlt⟩).hand.length = 7
            rw [(dl4 ((dealPlayers (getStartingHandSize pd.length) pd deck).1.get ⟨determineStartingPlayer (dealPlayers (getStartingHandSize pd.length) pd deck).1 createInitialPiles, hjlt⟩) (List.get_mem (dealPlayers (getStartingHandSize pd.length) pd deck).1 (determineStartingPlayer (dealPlayers (getStartingHandSize pd.length) pd deck).1 createInitialPiles) hjlt)).2.1, hhs]
        have : ((dealPlayers (getStartingHandSize pd.length) pd deck).1.set (determineStartingPlayer (dealPlayers (getStartingHandSize pd.length) pd deck).1 createInitialPiles)
            { (dealPlayers (getStartingHandSize pd.length) pd deck).1.get ⟨determineStartingPlayer (dealPlayers (getStartingHandSize pd.length) pd deck).1 createInitialPiles, hjlt⟩ with isCurrentPlayer := true }).map (fun p => p.hand.length)
            = List.replicate 2 7 := by
          rw [List.eq_replicate_iff]
          refine ⟨?_, hmem7⟩
          rw [List.length_map, hlen2]
        rw [this]
        rfl
      · show (dealPlayers (getStartingHandSize pd.length) pd deck).2.length = 84
        rw [dl2, List.length_take, hdlen, hhs, h2]
        omega

/-- C7 witness: initializing a 2-player game on a concrete 98-card deck
yields sorted 7-card hands, an 84-card deck, the standard piles and one
current player. -/
theorem initializeGame_spec_witness :
    ∃ s, initializeGame "room" demoPlayers demoDeck = .ok s ∧
      s.status = .playing ∧
      s.piles = createInitialPiles ∧
      s.piles.map (fun p => (p.type, p.currentValue))
        = [(.ascending, 1), (.ascending, 1),
           (.descending, 100), (.descending, 100)] ∧
      s.minCardsToPlay = 2 ∧ s.cardsPlayed = 0 ∧
      s.isDeckEmpty = false ∧ s.moveHistory = [] ∧ s.canUndo = false ∧
      s.players.length = demoPlayers.length ∧
      s.deck.length
        = 98 - demoPlayers.length * getStartingHandSize demoPlayers.length ∧
      (∀ p ∈ s.players,
        p.hand.length = getStartingHandSize demoPlayers.length ∧
        p.hand.Pairwise (fun a b => a.value ≤ b.value)) ∧
      (s.players.filter (fun p => p.isCurrentPlayer)).length = 1 ∧
      (demoPlayers.length = 2 →
        s.players.map (fun p => p.hand.length) = [7, 7] ∧
        s.deck.length = 84) :=
  (initializeGame_spec "room" demoPlayers demoDeck).2
    (by decide) (by decide) (by rfl)

/-! ### C8: the starting-player heuristic -/

/-- C8: the starting player designated by `initializeGame` is the player
with the highest heuristic score in the spec's sense — count of cards
immediately playable on any of the 4 piles, plus 2 per card of value ≤3
or ≥98, plus 1 per card of value ≤10 or ≥90 — with ties resolved to the
lowest player index. -/
theorem startingPlayer_heuristic (roomId : String)
    (pd : List (String × String × String)) (deck : List Card)
    (h1 : 1 ≤ pd.length) (h5 : pd.length ≤ 5) (hdlen : deck.length = 98)
    (hvals : ∀ c ∈ deck, 2 ≤ c.value ∧ c.value ≤ 99) :
    ∃ s, initializeGame roomId pd deck = .ok s ∧
      ∃ i, ∃ hi : i < s.players.length,
        (s.players.get ⟨i, hi⟩).isCurrentPlayer = true ∧
        s.currentPlayerId = (s.players.get ⟨i, hi⟩).id ∧
        (∀ j (hj : j < s.players.length), j ≠ i →
          (s.players.get ⟨j, hj⟩).isCurrentPlayer = false) ∧
        (∀ j (hj : j < s.players.length),
          specPlayerScore (s.players.get ⟨j, hj⟩) s.piles
            ≤ specPlayerScore (s.players.get ⟨i, hi⟩) s.piles) ∧
        (∀ j (hj : j < s.players.length), j < i →
          specPlayerScore (s.players.get ⟨j, hj⟩) s.piles
            < specPlayerScore (s.players.get ⟨i, hi⟩) s.piles) := by
  have hbound : pd.length * getStartingHandSize pd.length ≤ 98 := by
    unfold getStartingHandSize
    split_ifs <;> omega
  obtain ⟨dl1, dl2, dlids, dl4⟩ :=
    dealPlayers_spec pd deck (getStartingHandSize pd.length) (by omega)
  have hne : (dealPlayers (getStartingHandSize pd.length) pd deck).1 ≠ [] := by
    intro hcontr
    rw [hcontr] at dl1
    simp at dl1
    omega
  obtain ⟨hjlt, hstrict, hall⟩ :=
    determineStartingPlayer_argmax (dealPlayers (getStartingHandSize pd.length) pd deck).1 createInitialPiles hne
  have hsp : (dealPlayers (getStartingHandSize pd.length) pd deck).1[determineStartingPlayer (dealPlayers (getStartingHandSize pd.length) pd deck).1 createInitialPiles]? = some ((dealPlayers (getStartingHandSize pd.length) pd deck).1.get ⟨determineStartingPlayer (dealPlayers (getStartingHandSize pd.length) pd deck).1 createInitialPiles, hjlt⟩) := by
    rw [List.getElem?_eq_getElem hjlt]
    rfl
  have hrun : initializeGame roomId pd deck = .ok
      { id := roomId, status := .playing,
        currentPlayerId := ((dealPlayers (getStartingHandSize pd.length) pd deck).1.get ⟨determineStartingPlayer (dealPlayers (getStartingHandSize pd.length) pd deck).1 createInitialPiles, hjlt⟩).id,
        piles := createInitialPiles, deck := (dealPlayers (getStartingHandSize pd.length) pd deck).2,
        cardsPlayed := 0, minCardsToPlay := 2, isDeckEmpty := false,
        moveHistory := [], canUndo := false, maxPlayers := 5,
        players := (dealPlayers (getStartingHandSize pd.length) pd deck).1.set (determineStartingPlayer (dealPlayers (getStartingHandSize pd.length) pd deck).1 createInitialPiles)
          { (dealPlayers (getStartingHandSize pd.length) pd deck).1.get ⟨determineStartingPlayer (dealPlayers (getStartingHandSize pd.length) pd deck).1 createInitialPiles, hjlt⟩ with isCurrentPlayer := true } } := by
    unfold initializeGame
    rw [if_neg (by simp only [Bool.or_eq_true, decide_eq_true_eq]; omega)]
    simp only [hsp]
  -- every dealt player's score in the code's sense determines the
  -- spec-sense score up to the shared constant 3 * hand size
  have hscore : ∀ (q : ServerPlayer), q ∈ (dealPlayers (getStartingHandSize pd.length) pd deck).1 →
      playerScore q createInitialPiles
        = specPlayerScore q createInitialPiles
            + 3 * getStartingHandSize pd.length := by
    intro q hq
    obtain ⟨-, hl, -, hmemq⟩ := dl4 q hq
    rw [playerScore_eq_spec q (fun c hc => hvals c (hmemq c hc)), hl]
  have hlenset : ((dealPlayers (getStartingHandSize pd.length) pd deck).1.set (determineStartingPlayer (dealPlayers (getStartingHandSize pd.length) pd deck).1 createInitialPiles) { (dealPlayers (getStartingHandSize pd.length) pd deck).1.get ⟨determineStartingPlayer (dealPlayers (getStartingHandSize pd.length) pd deck).1 createInitialPiles, hjlt⟩ with isCurrentPlayer := true }).length = (dealPlayers (getStartingHandSize pd.length) pd deck).1.length := List.length_set ..
  have hget_set : ∀ (j : Nat) (hj : j < ((dealPlayers (getStartingHandSize pd.length) pd deck).1.set (determineStartingPlayer (dealPlayers (getStartingHandSize pd.length) pd deck).1 createInitialPiles) { (dealPlayers (getStartingHandSize pd.length) pd deck).1.get ⟨determineStartingPlayer (dealPlayers (getStartingHandSize pd.length) pd deck).1 createInitialPiles, hjlt⟩ with isCurrentPlayer := true }).length)
      (hj2 : j < (dealPlayers (getStartingHandSize pd.length) pd deck).1.length),
      ((dealPlayers (getStartingHandSize pd.length) pd deck).1.set (determineStartingPlayer (dealPlayers (getStartingHandSize pd.length) pd deck).1 createInitialPiles) { (dealPlayers (getStartingHandSize pd.length) pd deck).1.get ⟨determineStartingPlayer (dealPlayers (getStartingHandSize pd.length) pd deck).1 createInitialPiles, hjlt⟩ with isCurrentPlayer := true }).get ⟨j, hj⟩
        = if j = determineStartingPlayer (dealPlayers (getStartingHandSize pd.length) pd deck).1 createInitialPiles then { (dealPlayers (getStartingHandSize pd.length) pd deck).1.get ⟨determineStartingPlayer (dealPlayers (getStartingHandSize pd.length) pd deck).1 createInitialPiles, hjlt⟩ with isCurrentPlayer := true }
          else (dealPlayers (getStartingHandSize pd.length) pd deck).1.get ⟨j, hj2⟩ := by
    intro j hj hj2
    by_cases hji : j = determineStartingPlayer (dealPlayers (getStartingHandSize pd.length) pd deck).1 createInitialPiles
    · subst hji
      rw [if_pos rfl, List.get_eq_getElem]
      apply Option.some.inj
      rw [← List.getElem?_eq_getElem hj, List.getElem?_set_self hj2]
    · rw [if_neg hji]
      have h1 := List.getElem?_eq_getElem hj
      have h2 := List.getElem?_eq_getElem hj2
      have h3 : ((dealPlayers (getStartingHandSize pd.length) pd deck).1.set (determineStartingPlayer (dealPlayers (getStartingHandSize pd.length) pd deck).1 createInitialPiles) { (dealPlayers (getStartingHandSize pd.length) pd deck).1.get ⟨determineStartingPlayer (dealPlayers (getStartingHandSize pd.length) pd deck).1 createInitialPiles, hjlt⟩ with isCurrentPlayer := true })[j]?
          = (dealPlayers (getStartingHandSize pd.length) pd deck).1[j]? :=
        List.getElem?_set_ne (fun hc => hji hc.symm)
      rw [h1, h2] at h3
      exact Option.some.inj h3
  have hspecflag : specPlayerScore ({ (dealPlayers (getStartingHandSize pd.length) pd deck).1.get ⟨determineStartingPlayer (dealPlayers (getStartingHandSize pd.length) pd deck).1 createInitialPiles, hjlt⟩ with isCurrentPlayer := true } : ServerPlayer) createInitialPiles
      = specPlayerScore ((dealPlayers (getStartingHandSize pd.length) pd deck).1.get ⟨determineStartingPlayer (dealPlayers (getStartingHandSize pd.length) pd deck).1 createInitialPiles, hjlt⟩) createInitialPiles := rfl
  refine ⟨_, hrun, determineStartingPlayer (dealPlayers (getStartingHandSize pd.length) pd deck).1 createInitialPiles, ?_, ?_, ?_, ?_, ?_, ?_⟩
  · show determineStartingPlayer (dealPlayers (getStartingHandSize pd.length) pd deck).1 createInitialPiles < ((dealPlayers (getStartingHandSize pd.length) pd deck).1.set (determineStartingPlayer (dealPlayers (getStartingHandSize pd.length) pd deck).1 createInitialPiles) { (dealPlayers (getStartingHandSize pd.length) pd deck).1.get ⟨determineStartingPlayer (dealPlayers (getStartingHandSize pd.length) pd deck).1 createInitialPiles, hjlt⟩ with isCurrentPlayer := true }).length
    rw [hlenset]
    exact hjlt
  · rw [hget_set _ _ hjlt, if_pos rfl]
  · rw [hget_set _ _ hjlt, if_pos rfl]
  · intro j hj hjne
    have hj2 : j < (dealPlayers (getStartingHandSize pd.length) pd deck).1.length := by
      rw [hlenset] at hj
      exact hj
    rw [hget_set j hj hj2, if_neg hjne]
    exact (dl4 _ (List.get_mem (dealPlayers (getStartingHandSize pd.length) pd deck).1 j hj2)).1
  · intro j hj
    have hj2 : j < (dealPlayers (getStartingHandSize pd.length) pd deck).1.length := by
      rw [hlenset] at hj
      exact hj
    have hscomp := hall j hj2
    rw [hscore _ (List.get_mem (dealPlayers (getStartingHandSize pd.length) pd deck).1 j hj2),
      hscore _ (List.get_mem (dealPlayers (getStartingHandSize pd.length) pd deck).1 (determineStartingPlayer (dealPlayers (getStartingHandSize pd.length) pd deck).1 createInitialPiles) hjlt)] at hscomp
    show specPlayerScore (((dealPlayers (getStartingHandSize pd.length) pd deck).1.set (determineStartingPlayer (dealPlayers (getStartingHandSize pd.length) pd deck).1 createInitialPiles) { (dealPlayers (getStartingHandSize pd.length) pd deck).1.get ⟨determineStartingPlayer (dealPlayers (getStartingHandSize pd.length) pd deck).1 createInitialPiles, hjlt⟩ with isCurrentPlayer := true }).get ⟨j, hj⟩) createInitialPiles
        ≤ specPlayerScore (((dealPlayers (getStartingHandSize pd.length) pd deck).1.set (determineStartingPlayer (dealPlayers (getStartingHandSize pd.length) pd deck).1 createInitialPiles) { (dealPlayers (getStartingHandSize pd.length) pd deck).1.get ⟨determineStartingPlayer (dealPlayers (getStartingHandSize pd.length) pd deck).1 createInitialPiles, hjlt⟩ with isCurrentPlayer := true }).get ⟨determineStartingPlayer (dealPlayers (getStartingHandSize pd.length) pd deck).1 createInitialPiles, _⟩) createInitialPiles
    rw [hget_set _ _ hjlt, if_pos rfl, hspecflag,
      hget_set j hj hj2]
    by_cases hji : j = determineStartingPlayer (dealPlayers (getStartingHandSize pd.length) pd deck).1 createInitialPiles
    · rw [if_pos hji, hspecflag]
    · rw [if_neg hji]
      omega
  · intro j hj hjlt2
    have hj2 : j < (dealPlayers (getStartingHandSize pd.length) pd deck).1.length := by
      rw [hlenset] at hj
      exact hj
    have hscomp := hstrict j hj2 hjlt2
    rw [hscore _ (List.get_mem (dealPlayers (getStartingHandSize pd.length) pd deck).1 j hj2),
      hscore _ (List.get_mem (dealPlayers (getStartingHandSize pd.length) pd deck).1 (determineStartingPlayer (dealPlayers (getStartingHandSize pd.length) pd deck).1 createInitialPiles) hjlt)] at hscomp
    show specPlayerScore (((dealPlayers (getStartingHandSize pd.length) pd deck).1.set (determineStartingPlayer (dealPlayers (getStartingHandSize pd.length) pd deck).1 createInitialPiles) { (dealPlayers (getStartingHandSize pd.length) pd deck).1.get ⟨determineStartingPlayer (dealPlayers (getStartingHandSize pd.length) pd deck).1 createInitialPiles, hjlt⟩ with isCurrentPlayer := true }).get ⟨j, hj⟩) createInitialPiles
        < specPlayerScore (((dealPlayers (getStartingHandSize pd.length) pd deck).1.set (determineStartingPlayer (dealPlayers (getStartingHandSize pd.length) pd deck).1 createInitialPiles) { (dealPlayers (getStartingHandSize pd.length) pd deck).1.get ⟨determineStartingPlayer (dealPlayers (getStartingHandSize pd.length) pd deck).1 createInitialPiles, hjlt⟩ with isCurrentPlayer := true }).get ⟨determineStartingPlayer (dealPlayers (getStartingHandSize pd.length) pd deck).1 createInitialPiles, _⟩) createInitialPiles
    rw [hget_set _ _ hjlt, if_pos rfl, hspecflag,
      hget_set j hj hj2, if_neg (by omega)]
    omega

/-- C8 witness: on the concrete 2-player deal, the flagged starting
player is the spec-score argmax with first-index tie-breaking. -/
theorem startingPlayer_heuristic_witness :
    ∃ s, initializeGame "room" demoPlayers demoDeck = .ok s ∧
      ∃ i, ∃ hi : i < s.players.length,
        (s.players.get ⟨i, hi⟩).isCurrentPlayer = true ∧
        s.currentPlayerId = (s.players.get ⟨i, hi⟩).id ∧
        (∀ j (hj : j < s.players.length), j ≠ i →
          (s.players.get ⟨j, hj⟩).isCurrentPlayer = false) ∧
        (∀ j (hj : j < s.players.length),
          specPlayerScore (s.players.get ⟨j, hj⟩) s.piles
            ≤ specPlayerScore (s.players.get ⟨i, hi⟩) s.piles) ∧
        (∀ j (hj : j < s.players.length), j < i →
          specPlayerScore (s.players.get ⟨j, hj⟩) s.piles
            < specPlayerScore (s.players.get ⟨i, hi⟩) s.piles) :=
  startingPlayer_heuristic "room" demoPlayers demoDeck
    (by decide) (by decide) (by rfl) (by decide)

/-! ### C2: card conservation and the unique current-turn flag -/

/-- C2: for every game state produced by `initializeGame` on a roster
whose player ids are pairwise distinct, followed by any sequence of
successful `playCard`, `endTurn` and `undoLastMove` calls, the sum of
all players' hand sizes plus the deck size plus the total count of
cards on the 4 piles equals 98, and whenever the status is `playing`
exactly one player has the current-turn flag set.  (The distinctness
hypothesis is the needed correction: on a roster with a duplicated id
the engine itself breaks the unique-flag half, see the
counterexample.) -/
theorem conservation_and_unique_flag (s : ServerGameState)
    (h : Reachable (fun pd => (pd.map (fun d => d.1)).Nodup) s) :
    handsTotal s.players + s.deck.length + pilesTotal s.piles = 98 ∧
    (s.status = .playing →
      (s.players.filter (fun p => p.isCurrentPlayer)).length = 1) := by
  obtain ⟨⟨htot, -, hflag⟩, -⟩ :=
    StateInv_reachable (fun pd => (pd.map (fun d => d.1)).Nodup)
      (fun pd hpd => hpd) s h
  have htot' : handsTotal s.players + s.deck.length + pilesTotal s.piles = 98 :=
    htot
  obtain ⟨i, hi, -, hflags⟩ := hflag
  have hflags' : s.players.map (fun p => p.isCurrentPlayer)
      = (List.replicate s.players.length false).set i true := hflags
  have hi' : i < s.players.length := hi
  refine ⟨htot', fun _ => ?_⟩
  have hlf : (s.players.filter (fun p => p.isCurrentPlayer)).length
      = ((s.players.map (fun p => p.isCurrentPlayer)).filter
          (fun b => b)).length := by
    rw [List.filter_map, List.length_map]
    congr 1
  rw [hlf, hflags']
  apply filter_length_set_true
  · intro a ha
    simpa using List.eq_of_mem_replicate ha
  · rfl
  · simpa using hi'

/-- C2 witness: the freshly initialized two-player demo game carries 98
cards across hands, deck and piles, and has exactly one player flagged
as current while the status is `playing`. -/
theorem conservation_and_unique_flag_witness :
    handsTotal (exceptOk sampleState
        (initializeGame "room" demoPlayers demoDeck)).players
      + (exceptOk sampleState
          (initializeGame "room" demoPlayers demoDeck)).deck.length
      + pilesTotal (exceptOk sampleState
          (initializeGame "room" demoPlayers demoDeck)).piles = 98 ∧
    ((exceptOk sampleState
        (initializeGame "room" demoPlayers demoDeck)).status = .playing →
      ((exceptOk sampleState
          (initializeGame "room" demoPlayers demoDeck)).players.filter
        (fun p => p.isCurrentPlayer)).length = 1) :=
  conservation_and_unique_flag
    (exceptOk sampleState (initializeGame "room" demoPlayers demoDeck))
    (Reachable.init "room" demoPlayers demoDeck
      (exceptOk sampleState (initializeGame "room" demoPlayers demoDeck))
      (by decide) (List.isPerm_iff.mp (by rfl)) (by rfl))

/-- C2 counterexample to the claim as stated (without requiring
distinct ids): the engine reaches a state that is still `playing` yet
has TWO current-turn flags set.  `initializeGame` accepts a roster with
a duplicated id, its heuristic hands the turn to seat 2 (id "a"), and
`endTurn` later resolves "a" to seat 0, clearing seat 0's flag and
raising seat 1's while seat 2 keeps the flag from initialization. -/
theorem conservation_flag_counterexample :
    Reachable (fun _ => True) badState3 ∧
    badState3.status = GameStatus.playing ∧
    (badState3.players.filter (fun p => p.isCurrentPlayer)).length = 2 :=
  ⟨Reachable.advance badState2 badState3
      (Reachable.play badState1 "a" "51" "ascending-1" badState2
        (Reachable.play badState0 "a" "50" "ascending-1" badState1
          (Reachable.init "bad" badPD badDeck badState0 trivial
            (List.isPerm_iff.mp (by rfl)) (by rfl))
          (by rfl))
        (by rfl))
      (by rfl),
    by rfl, by rfl⟩

end TheGame
